import Mathlib

/-!
# Verification of the zha-topology-visualizer inference engine

Shallow embedding of the topology-inference core of
`zha-topology-visualizer` (files `rootfs/app/main.py` and
`rootfs/app/visualize.py`) and proofs about it.

Modelling conventions:
* `ieee` device identities are Lean `String`s; Python's lexicographic
  string order coincides with the `LinearOrder String` instance
  (code-point lexicographic) used here.
* Python dictionaries (`nodes = {n['id']: n}`, `devices = {d['ieee']: d}`,
  `router_parents`, `best_link`, ...) are embedded as association lists.
  Dict comprehensions produce unique keys, so theorems that depend on
  dict semantics carry a `Nodup` hypothesis on the key list; lookups are
  first-match (`find?`), which agrees with dict lookup under `Nodup`.
* Loosely-typed JSON fields (`lqi`, `nwk`, `dest_nwk`, `next_hop`) are
  embedded as `JVal` (null / int / string).  Python `int(...)` parsing is
  modelled for plain optionally-signed digit strings and `0x` hex strings;
  exotic literal forms (embedded underscores, surrounding whitespace,
  floats, booleans) are not modelled — no claim depends on them.
* A missing string field (`.get(...)` returning `None`) is modelled as
  `""` for `relationship` / `route_status` (these are only compared
  against non-empty literals) and as `Option String` for a neighbor's
  `ieee` (where the code distinguishes truthiness and membership).
-/

/-- A loosely-typed JSON scalar as found in `lqi` / `nwk` / route fields. -/
inductive JVal where
  | jnull : JVal
  | jint : Int → JVal
  | jstr : String → JVal
deriving DecidableEq, Repr

/-- Python truthiness of a `JVal`: `None`, `0` and `""` are falsy. -/
def JVal.truthy : JVal → Bool
  | .jnull => false
  | .jint n => n != 0
  | .jstr s => s != ""

/-- Value of a single decimal digit character, if it is one. -/
def decDigit? (c : Char) : Option Nat :=
  if '0' ≤ c ∧ c ≤ '9' then some (c.toNat - '0'.toNat) else none

/-- Value of a single hexadecimal digit character, if it is one. -/
def hexDigit? (c : Char) : Option Nat :=
  if '0' ≤ c ∧ c ≤ '9' then some (c.toNat - '0'.toNat)
  else if 'a' ≤ c ∧ c ≤ 'f' then some (c.toNat - 'a'.toNat + 10)
  else if 'A' ≤ c ∧ c ≤ 'F' then some (c.toNat - 'A'.toNat + 10)
  else none

/-- Parse a non-empty run of digits in the given base; `none` on any
non-digit or on the empty list (Python `int` raises `ValueError` there). -/
def parseDigits (base : Nat) (dig? : Char → Option Nat) (l : List Char) : Option Nat :=
  if l.isEmpty then none
  else l.foldlM (fun a c => (dig? c).map (fun d => a * base + d)) 0

/-- Python `int(s)` on a decimal string: optional sign then digits.
(Whitespace/underscore forms are not modelled.) -/
def pyIntDec? (s : String) : Option Int :=
  match s.data with
  | '-' :: rest => (parseDigits 10 decDigit? rest).map (fun n => -(n : Int))
  | '+' :: rest => (parseDigits 10 decDigit? rest).map (fun n => (n : Int))
  | l => (parseDigits 10 decDigit? l).map (fun n => (n : Int))

/-- `visualize.py` lines 168-178, `nwk_to_int`: normalize a raw `nwk`
value to an integer.  `None` and unparsable strings give `None`;
strings starting with `0x` are parsed as hex (`int(s, 16)`, which itself
accepts and strips the `0x` prefix — modelled by matching the two
leading characters), other strings as decimal (`int(s)`). -/
def nwk_to_int : JVal → Option Int
  | .jnull => none
  | .jint n => some n
  | .jstr s =>
      match s.data with
      | '0' :: 'x' :: rest => (parseDigits 16 hexDigit? rest).map (fun n => (n : Int))
      | _ => pyIntDec? s

/-- The coercion `int(x or 0)` guarded by `try/except → 0` that the code
applies to every `lqi` report (`visualize.py` 211-213 / 238-241 / 270-273 /
308-311, `main.py` 412-415).  Falsy values give `0`; integers pass through
unchanged (no clamping); non-numeric strings give `0`. -/
def pyToInt : JVal → Int
  | .jnull => 0
  | .jint n => n
  | .jstr s => if s = "" then 0 else (pyIntDec? s).getD 0

/-- A node of `data['topology']['nodes']` as produced by
`main.py` `build_topology` (fields read by the inference code only;
presentation-only fields such as `name` / `manufacturer` are omitted). -/
structure Node where
  id : String
  device_type : String
  is_coordinator : Bool
deriving DecidableEq, Repr

/-- An edge of `data['topology']['edges']` as produced by
`main.py` `build_topology` lines 418-427.  `build_topology` coerces the
lqi with `int(lqi_raw) if lqi_raw else 0` before writing, so an edge's
`lqi` is always an integer. -/
structure Edge where
  source : String
  target : String
  relationship : String
  lqi : Int
deriving DecidableEq, Repr

/-- A raw neighbor record of a device in `data['devices']`. -/
structure Neighbor where
  ieee : Option String
  lqi : JVal
  relationship : String
  nwk : JVal
deriving DecidableEq, Repr

/-- A raw routing-table record of a device in `data['devices']`. -/
structure Route where
  dest_nwk : JVal
  next_hop : JVal
  route_status : String
deriving DecidableEq, Repr

/-- A raw device of `data['devices']` (fields read by the inference code). -/
structure Device where
  ieee : String
  nwk : JVal
  neighbors : List Neighbor
  routes : List Route
deriving DecidableEq, Repr

/-- The in-memory snapshot loaded from the export file: the node/edge
topology plus the raw device list. -/
structure Snapshot where
  nodes : List Node
  edges : List Edge
  devices : List Device
deriving DecidableEq, Repr

/-- Dict lookup `nodes.get(id)` (first match; dict keys are unique). -/
def lookupNode (nodes : List Node) (id : String) : Option Node :=
  nodes.find? (fun n => n.id = id)

/-- Dict lookup `devices.get(ieee)` (first match; dict keys are unique). -/
def lookupDevice (devices : List Device) (id : String) : Option Device :=
  devices.find? (fun d => d.ieee = id)

/-! ## Edge Reducer (`build_hierarchy` lines 44-54) -/

/-- `tuple(sorted([a, b]))`: the canonical unordered key of a pair of
identities. -/
def canonKey (a b : String) : String × String :=
  if a ≤ b then (a, b) else (b, a)

/-- One step of the `best_link` accumulation (`visualize.py` 45-50):
keep the strictly larger lqi for the canonical key.  (On an `Edge` the
expression `edge.get('lqi', 0) or 0` is the identity: the lqi is already
an integer and `0 or 0 == 0`.) -/
def bestLinkStep (m : String × String → Option Int) (e : Edge) :
    String × String → Option Int :=
  let key := canonKey e.source e.target
  match m key with
  | none => fun k => if k = key then some e.lqi else m k
  | some v =>
      if e.lqi > v then (fun k => if k = key then some e.lqi else m k) else m

/-- The `best_link` map after folding all edges. -/
def bestLink (edges : List Edge) : String × String → Option Int :=
  edges.foldl bestLinkStep (fun _ => none)

/-- `get_link_lqi` (`visualize.py` 52-54): best lqi for an unordered
pair, defaulting to `0`. -/
def get_link_lqi (edges : List Edge) (id1 id2 : String) : Int :=
  (bestLink edges (canonKey id1 id2)).getD 0

/-- The lqi values of every directional/duplicate report for the
unordered pair `{a, b}` (the claim's notion of "all reports for that
pair"). -/
def pairReports (edges : List Edge) (a b : String) : List Int :=
  (edges.filter (fun e => canonKey e.source e.target = canonKey a b)).map Edge.lqi

/-- Maximum of a list of integers, `none` when empty. -/
def maxOfList : List Int → Option Int
  | [] => none
  | x :: xs =>
      some (match maxOfList xs with
            | none => x
            | some m => max x m)

/-! ## Hierarchy Builder (`build_hierarchy` lines 23-148)

The Python builds `children` as a `defaultdict(list)` receiving appends;
we represent the whole children map as the list of
`(parent, child, lqiOrNone)` triples in append order (so `children[p]`
is the sublist with first component `p`).  The final per-parent
presentation sort (lines 137-141) permutes each `children[p]` in place
and is irrelevant to the membership/partition properties claimed. -/

/-- Replace the first binding of `k` (dict assignment semantics), or
append a new binding. -/
def updateAssoc {α : Type} (l : List (String × α)) (k : String) (v : α) :
    List (String × α) :=
  match l with
  | [] => [(k, v)]
  | (k', v') :: t => if k' = k then (k, v) :: t else (k', v') :: updateAssoc t k v

/-- First-match association lookup (dict lookup under unique keys). -/
def alookup {α : Type} (l : List (String × α)) (k : String) : Option α :=
  (l.find? (fun p => p.1 = k)).map Prod.snd

/-- One edge's contribution to `router_parents` (`visualize.py` 56-74):
a `Parent` report by a Router records the target as its candidate
parent; a `Child` report by a Router/Coordinator about a Router records
the source as the target-router's candidate parent.  A strictly larger
lqi replaces an existing candidate (ties keep the first). -/
def routerParentsStep (nodes : List Node)
    (rp : List (String × (String × Int))) (e : Edge) :
    List (String × (String × Int)) :=
  let rp1 :=
    if e.relationship = "Parent" then
      match lookupNode nodes e.source with
      | some sn =>
          if sn.device_type = "Router" then
            match alookup rp e.source with
            | none => updateAssoc rp e.source (e.target, e.lqi)
            | some (_, l0) =>
                if e.lqi > l0 then updateAssoc rp e.source (e.target, e.lqi) else rp
          else rp
      | none => rp
    else rp
  if e.relationship = "Child" then
    match lookupNode nodes e.target with
    | some tn =>
        if tn.device_type = "Router" then
          match lookupNode nodes e.source with
          | some sn =>
              if sn.device_type = "Router" ∨ sn.device_type = "Coordinator" then
                match alookup rp1 e.target with
                | none => updateAssoc rp1 e.target (e.source, e.lqi)
                | some (_, l0) =>
                    if e.lqi > l0 then updateAssoc rp1 e.target (e.source, e.lqi) else rp1
              else rp1
          | none => rp1
        else rp1
    | none => rp1
  else rp1

/-- The `router_parents` dict after scanning all edges. -/
def routerParents (nodes : List Node) (edges : List Edge) :
    List (String × (String × Int)) :=
  edges.foldl (routerParentsStep nodes) []

/-- One edge's contribution to `end_device_parent` (`visualize.py`
87-102): a `Child` report by a Router/Coordinator about an EndDevice. -/
def endDeviceParentStep (nodes : List Node)
    (edp : List (String × (String × Int))) (e : Edge) :
    List (String × (String × Int)) :=
  if e.relationship = "Child" then
    match lookupNode nodes e.source, lookupNode nodes e.target with
    | some sn, some tn =>
        if (sn.device_type = "Router" ∨ sn.device_type = "Coordinator") ∧
            tn.device_type = "EndDevice" then
          match alookup edp e.target with
          | none => updateAssoc edp e.target (e.source, e.lqi)
          | some (_, l0) =>
              if e.lqi > l0 then updateAssoc edp e.target (e.source, e.lqi) else edp
        else edp
    | _, _ => edp
  else edp

/-- The `end_device_parent` dict after scanning all edges. -/
def endDeviceParent (nodes : List Node) (edges : List Edge) :
    List (String × (String × Int)) :=
  edges.foldl (endDeviceParentStep nodes) []

/-- `lqi if lqi > 0 else None` (`visualize.py` 81/84/112/129). -/
def posOpt (l : Int) : Option Int := if l > 0 then some l else none

/-- The fallback edge scan for an unparented end device
(`visualize.py` 116-127): best `(lqi, parent)` over all edges touching
the device whose other endpoint is a known Router/Coordinator, starting
from `(0, coordinator)` with strictly-greater updates. -/
def edgeScan (nodes : List Node) (edges : List Edge) (coordId did : String) :
    Int × String :=
  edges.foldl
    (fun best e =>
      if e.source = did ∨ e.target = did then
        let other := if e.source = did then e.target else e.source
        match lookupNode nodes other with
        | some onode =>
            if onode.device_type = "Router" ∨ onode.device_type = "Coordinator" then
              if e.lqi > best.1 then (e.lqi, other) else best
            else best
        | none => best
      else best)
    (0, coordId)

/-- The children triple appended for one router (`visualize.py` 77-85). -/
def routerPair (nodes : List Node) (edges : List Edge) (coordId : String)
    (r : Node) : String × String × Option Int :=
  match alookup (routerParents nodes edges) r.id with
  | some (p, l) => (p, r.id, posOpt l)
  | none => (coordId, r.id, posOpt (get_link_lqi edges coordId r.id))

/-- The children triple appended for one unassigned end device
(`visualize.py` 110-129). -/
def endDevicePair (nodes : List Node) (edges : List Edge) (coordId : String)
    (d : Node) : String × String × Option Int :=
  match alookup (endDeviceParent nodes edges) d.id with
  | some (p, l) => (p, d.id, posOpt l)
  | none =>
      let (bl, bp) := edgeScan nodes edges coordId d.id
      (bp, d.id, posOpt bl)

/-- The end-device tier (`visualize.py` 104-130): process end devices in
order, skipping ids already assigned, appending one triple each and
recording the id (the triple's child component) as assigned. -/
def edPhase (nodes : List Node) (edges : List Edge) (coordId : String)
    (assigned : List String) :
    List Node → List (String × String × Option Int)
  | [] => []
  | d :: rest =>
      if d.id ∈ assigned then edPhase nodes edges coordId assigned rest
      else endDevicePair nodes edges coordId d ::
        edPhase nodes edges coordId (d.id :: assigned) rest

/-- The orphan tier (`visualize.py` 132-135): every node untouched so
far is appended under the coordinator with `None` quality. -/
def orphanPhase (coordId : String) (assigned : List String) :
    List Node → List (String × String × Option Int)
  | [] => []
  | n :: rest =>
      if n.id ∈ assigned then orphanPhase coordId assigned rest
      else (coordId, n.id, none) :: orphanPhase coordId (n.id :: assigned) rest

/-- `routers = [n for n in nodes.values() if device_type == 'Router']`. -/
def routersOf (nodes : List Node) : List Node :=
  nodes.filter (fun n => n.device_type = "Router")

/-- The end-device node list (`visualize.py` 104). -/
def endDevicesOf (nodes : List Node) : List Node :=
  nodes.filter (fun n => n.device_type = "EndDevice")

/-- The `assigned` set after the router tier: the coordinator plus all
routers (`visualize.py` 41-42 and 85). -/
def assigned1Of (nodes : List Node) (coordId : String) : List String :=
  coordId :: (routersOf nodes).map Node.id

/-- The triples appended by the end-device tier. -/
def edPairsOf (nodes : List Node) (edges : List Edge) (coordId : String) :
    List (String × String × Option Int) :=
  edPhase nodes edges coordId (assigned1Of nodes coordId) (endDevicesOf nodes)

/-- The `assigned` set after the end-device tier (each appended triple's
child was added, `visualize.py` 113/130). -/
def assigned2Of (nodes : List Node) (edges : List Edge) (coordId : String) :
    List String :=
  (edPairsOf nodes edges coordId).map (fun t => t.2.1) ++ assigned1Of nodes coordId

/-- All `(parent, child, lqiOrNone)` triples appended to `children` by
`build_hierarchy` given the coordinator node, in append order:
router tier, then end-device tier, then orphan tier. -/
def hierarchyPairs (nodes : List Node) (edges : List Edge) (coord : Node) :
    List (String × String × Option Int) :=
  (routersOf nodes).map (routerPair nodes edges coord.id) ++
    edPairsOf nodes edges coord.id ++
    orphanPhase coord.id (assigned2Of nodes edges coord.id) nodes

/-- The child components of all children lists. -/
def childList (nodes : List Node) (edges : List Edge) (coord : Node) :
    List String :=
  (hierarchyPairs nodes edges coord).map (fun t => t.2.1)

/-- The hierarchy result (the source returns a 4-key dict; `nodes` and
`devices` are passed through unchanged, so we keep the computed parts). -/
structure Hierarchy where
  coordinator : Node
  pairs : List (String × String × Option Int)
deriving DecidableEq, Repr

/-- `build_hierarchy` (`visualize.py` 23-148): find the first node
flagged `is_coordinator`; with none, the source returns the falsy `{}`
(modelled as `none`), otherwise a non-empty result dict (`some`). -/
def build_hierarchy (data : Snapshot) : Option Hierarchy :=
  match data.nodes.find? (fun n => n.is_coordinator) with
  | none => none
  | some coord => some ⟨coord, hierarchyPairs data.nodes data.edges coord⟩

/-- `generate_visualization` (`visualize.py` 1559-1580): a falsy
hierarchy raises `ValueError`, surfaced here as `Except.error`. -/
def generate_visualization (data : Snapshot) : Except String Hierarchy :=
  match build_hierarchy data with
  | none => Except.error "Could not build hierarchy from topology data"
  | some h => Except.ok h

/-- Reachability through the children map by saturating the set of ids
reachable from a root (used to state reachability claims; one expansion
step per round, `pairs.length + 1` rounds saturate). -/
def reachStep (pairs : List (String × String × Option Int))
    (acc : List String) : List String :=
  acc ++ (pairs.filterMap (fun t =>
    if t.1 ∈ acc ∧ t.2.1 ∉ acc then some t.2.1 else none)).dedup

/-- Iterated expansion of `reachStep`. -/
def reachN (pairs : List (String × String × Option Int)) :
    Nat → List String → List String
  | 0, acc => acc
  | n + 1, acc => reachN pairs n (reachStep pairs acc)

/-- The ids reachable from `root` by following the children map. -/
def reachableFrom (pairs : List (String × String × Option Int))
    (root : String) : List String :=
  reachN pairs (pairs.length + 1) [root]

/-! ## Primary Link Resolver (`generate_html` lines 160-337)

The source fills the dict `device_primary_link` with five sequential
loops; every loop skips ids already present, and each loop body depends
only on the immutable snapshot and the id at hand.  The final value for
an id is therefore the result of the first applicable pass, embedded
here as one per-id cascade.  Loops 1, 2 and 4 iterate `devices.items()`
(so they require a device entry), loops 3 and 5 iterate `nodes`. -/

/-- The `PrimaryLink` record stored in `device_primary_link`. -/
structure PLink where
  target : String
  lqi : Option Int
  source_type : String
deriving DecidableEq, Repr

/-- The `nwk → ieee` index (`visualize.py` 160-164) is keyed by the RAW
`nwk` value of each truthy-nwk device (later devices overwrite earlier
ones), but is queried with the NORMALIZED integer next hop
(`nwk_to_ieee.get(next_hop_nwk)`, line 202).  A Python dict lookup with
an `int` key only ever matches entries whose raw key is that same
integer, so the lookup resolves exactly the devices whose `nwk` field
was supplied as the plain integer `nh`. -/
def nwkToIeee (devices : List Device) (nh : Int) : Option String :=
  ((devices.filter (fun d => d.nwk.truthy && d.nwk = JVal.jint nh)).getLast?).map Device.ieee

/-- The link quality of a resolved next hop (`visualize.py` 205-214):
the first neighbor entry matching by normalized nwk or by identity,
coerced, defaulting to 0. -/
def routeNeighborLqi (dev : Device) (nh : Int) (nhIeee : String) : Int :=
  match dev.neighbors.find?
      (fun n => nwk_to_int n.nwk = some nh ∨ n.ieee = some nhIeee) with
  | some n => pyToInt n.lqi
  | none => 0

/-- One route's attempt to resolve a coordinator route
(`visualize.py` 193-216): usable status, normalized `dest_nwk == 0`,
normalizable `next_hop`; next hop 0 resolves to the coordinator,
otherwise through the raw-keyed `nwk → ieee` index; the resolved id must
be truthy and a known node.  Any failed condition falls through to the
next route. -/
def routeTry (devices : List Device) (nodes : List Node) (coordId : String)
    (dev : Device) (r : Route) : Option (String × Int) :=
  if r.route_status = "Active" ∨ r.route_status = "Validation_Underway" then
    match nwk_to_int r.dest_nwk with
    | some d =>
        if d = 0 then
          match nwk_to_int r.next_hop with
          | some nh =>
              match (if nh = 0 then some coordId else nwkToIeee devices nh) with
              | some t =>
                  if t ≠ "" ∧ (lookupNode nodes t).isSome then
                    some (t, routeNeighborLqi dev nh t)
                  else none
              | none => none
          | none => none
        else none
    | none => none
  else none

/-- Pass 1, route-derived (`visualize.py` 183-223). -/
def pass1 (devices : List Device) (nodes : List Node) (coordId : String)
    (id : String) : Option PLink :=
  match lookupDevice devices id with
  | none => none
  | some dev =>
      match lookupNode nodes id with
      | none => none
      | some nd =>
          if nd.is_coordinator then none
          else (dev.routes.findSome? (routeTry devices nodes coordId dev)).map
            (fun tl => ⟨tl.1, some tl.2, "route"⟩)

/-- Pass 2, parent-relationship-derived (`visualize.py` 225-247): the
first own neighbor marked `Parent` with a truthy, known identity.  Note:
this pass does NOT skip the coordinator. -/
def pass2 (devices : List Device) (nodes : List Node) (id : String) :
    Option PLink :=
  match lookupDevice devices id with
  | none => none
  | some dev =>
      match lookupNode nodes id with
      | none => none
      | some _ =>
          dev.neighbors.findSome? (fun n =>
            if n.relationship = "Parent" then
              match n.ieee with
              | some p =>
                  if p ≠ "" ∧ (lookupNode nodes p).isSome then
                    some ⟨p, some (pyToInt n.lqi), "parent"⟩
                  else none
              | none => none
            else none)

/-- All `(reporter, coerced lqi)` pairs from Router/Coordinator-typed
known devices whose neighbor tables report `id` as their `Child`
(`visualize.py` 259-273), in scan order. -/
def childReports (devices : List Device) (nodes : List Node) (id : String) :
    List (String × Int) :=
  devices.flatMap (fun od =>
    if od.ieee = id then []
    else
      match lookupNode nodes od.ieee with
      | none => []
      | some onode =>
          if onode.device_type = "Router" ∨ onode.device_type = "Coordinator" then
            od.neighbors.filterMap (fun n =>
              if n.ieee = some id ∧ n.relationship = "Child" then
                some (od.ieee, pyToInt n.lqi)
              else none)
          else [])

/-- The `best = None / best_lqi = -1 / if lqi > best_lqi` accumulation
used by passes 3 and 4 (`visualize.py` 257-276 and 296-321): keep the
first strict maximum. -/
def pickBest : Option String × Int → List (String × Int) → Option String × Int
  | acc, [] => acc
  | (b, bl), (p, l) :: rest =>
      if l > bl then pickBest (some p, l) rest else pickBest (b, bl) rest

/-- The winner of a strict-max scan, if any report beat the initial -1. -/
def foldBest (l : List (String × Int)) : Option (String × Int) :=
  match pickBest (none, -1) l with
  | (some p, lq) => some (p, lq)
  | (none, _) => none

/-- Pass 3, strongest inbound `Child` report (`visualize.py` 249-283).
Note: the stored `source_type` is `"parent"`, not `"neighbor"`. -/
def pass3 (devices : List Device) (nodes : List Node) (id : String) :
    Option PLink :=
  match lookupNode nodes id with
  | none => none
  | some nd =>
      if nd.is_coordinator then none
      else (foldBest (childReports devices nodes id)).map
        (fun pl => ⟨pl.1, some pl.2, "parent"⟩)

/-- The `(neighbor, coerced lqi)` candidates of the self-reported
neighbor scan (`visualize.py` 296-321): truthy known neighbor ids; end
devices only consider Router/Coordinator-typed neighbors, every other
device type considers all. -/
def selfNeighborCands (nodes : List Node) (nd : Node) (dev : Device) :
    List (String × Int) :=
  dev.neighbors.filterMap (fun n =>
    match n.ieee with
    | none => none
    | some nid =>
        if nid = "" then none
        else
          match lookupNode nodes nid with
          | none => none
          | some nnode =>
              if nd.device_type = "EndDevice" then
                if nnode.device_type = "Router" ∨ nnode.device_type = "Coordinator" then
                  some (nid, pyToInt n.lqi)
                else none
              else some (nid, pyToInt n.lqi))

/-- Pass 4, self-reported-neighbor fallback (`visualize.py` 285-328). -/
def pass4 (devices : List Device) (nodes : List Node) (id : String) :
    Option PLink :=
  match lookupDevice devices id with
  | none => none
  | some dev =>
      match lookupNode nodes id with
      | none => none
      | some nd =>
          if nd.is_coordinator then none
          else (foldBest (selfNeighborCands nodes nd dev)).map
            (fun pl => ⟨pl.1, some pl.2, "neighbor"⟩)

/-- Pass 5, coordinator fallback (`visualize.py` 330-337): every node id
other than the coordinator's that is still unresolved. -/
def pass5 (nodes : List Node) (coordId : String) (id : String) : Option PLink :=
  if (lookupNode nodes id).isSome ∧ id ≠ coordId then
    some ⟨coordId, none, "fallback"⟩
  else none

/-- The final `device_primary_link` entry for an id: the first
applicable pass. -/
def primaryLink (devices : List Device) (nodes : List Node) (coordId : String)
    (id : String) : Option PLink :=
  ((((pass1 devices nodes coordId id).orElse
      (fun _ => pass2 devices nodes id)).orElse
      (fun _ => pass3 devices nodes id)).orElse
      (fun _ => pass4 devices nodes id)).orElse
      (fun _ => pass5 nodes coordId id)

/-! ## Path Resolver (`generate_html` lines 419-448)

The while-loop walk is embedded with explicit fuel; `links.length + 1`
units of fuel are provably never exhausted because every iteration
consumes a not-yet-visited key of the link map (`walkAux_length_le`
below bounds the growth by exactly that measure). -/

/-- Lookup in the `device_primary_link` dict. -/
def lookupLink (links : List (String × PLink)) (id : String) : Option PLink :=
  (links.find? (fun p => p.1 = id)).map Prod.snd

/-- One hop of a device path (the `id` and `lqi` of the appended
record; the `name` / `device_type` components are presentational). -/
abbrev PathHop := String × Option Int

/-- The while loop of `visualize.py` 431-446: stop on a falsy id, on
the coordinator, on a revisit, or on a dead end; otherwise append the
parent hop and continue from it. -/
def walkAux (links : List (String × PLink)) (coordId : String) :
    Nat → String → List String → List PathHop → List PathHop
  | 0, _, _, path => path
  | fuel + 1, current, visited, path =>
      if current = "" then path
      else if current = coordId then path
      else if current ∈ visited then path
      else
        match lookupLink links current with
        | some link =>
            walkAux links coordId fuel link.target (current :: visited)
              (path ++ [(link.target, link.lqi)])
        | none => path

/-- The path computed for one id (`visualize.py` 422-448): the
coordinator's own path is the empty list; everything else walks the
primary-link chain. -/
def devicePath (links : List (String × PLink)) (coordId : String)
    (id : String) : List PathHop :=
  if id = coordId then []
  else walkAux links coordId (links.length + 1) id [] []

/-! ## Concrete snapshots and auxiliary definitions used by the theorems -/

/-- Merge of an old best value with the max of later reports. -/
def omax : Option Int → Option Int → Option Int
  | a, none => a
  | none, some m => some m
  | some v, some m => some (max v m)

/-- The lqi values of the reports whose canonical key is `k`. -/
def reportsFor (edges : List Edge) (k : String × String) : List Int :=
  (edges.filter (fun e => canonKey e.source e.target = k)).map Edge.lqi

/-- A one-node snapshot with a coordinator used to witness C7. -/
def snapC7 : Snapshot := ⟨[⟨"C", "Coordinator", true⟩], [], []⟩

/-- Nodes of the spec's worked example: coordinator `C`, router `R1`,
end device `E`. -/
def exNodes : List Node :=
  [⟨"C", "Coordinator", true⟩, ⟨"R1", "Router", false⟩, ⟨"E", "EndDevice", false⟩]

/-- Edges of the spec's worked example (`R1` reports `C` as Parent with
lqi 200, `E` reports `R1` as Parent with lqi 150). -/
def exEdges : List Edge :=
  [⟨"R1", "C", "Parent", 200⟩, ⟨"E", "R1", "Parent", 150⟩]

/-- Nodes of the router-cycle counterexample. -/
def cyNodes : List Node :=
  [⟨"C", "Coordinator", true⟩, ⟨"R1", "Router", false⟩, ⟨"R2", "Router", false⟩]

/-- Edges of the router-cycle counterexample: two routers each report
the other as their `Parent`. -/
def cyEdges : List Edge :=
  [⟨"R1", "R2", "Parent", 10⟩, ⟨"R2", "R1", "Parent", 10⟩]

/-- Nodes of the coordinator-with-Parent-neighbor counterexample. -/
def c3Nodes : List Node :=
  [⟨"C", "Coordinator", true⟩, ⟨"R1", "Router", false⟩]

/-- Devices of the C3 counterexample: the coordinator's own device entry
reports `R1` as a Parent-marked neighbor. -/
def c3Devices : List Device :=
  [⟨"C", JVal.jnull, [⟨some "R1", JVal.jint 10, "Parent", JVal.jnull⟩], []⟩]

/-- Nodes of the C4 counterexample. -/
def c4Nodes : List Node :=
  [⟨"C", "Coordinator", true⟩, ⟨"R1", "Router", false⟩, ⟨"E", "EndDevice", false⟩]

/-- Devices of the C4 counterexample: router `R1` reports `E` as its
`Child` with lqi 100; `E` has no device entry (hence no routes and no
own Parent report). -/
def c4Devices : List Device :=
  [⟨"R1", JVal.jnull, [⟨some "E", JVal.jint 100, "Child", JVal.jnull⟩], []⟩]

/-- Nodes of the C5 counterexample. -/
def c5Nodes : List Node :=
  [⟨"C", "Coordinator", true⟩, ⟨"R1", "Router", false⟩, ⟨"D", "EndDevice", false⟩]

/-- Devices of the C5 counterexample: `R1`'s nwk is the hex string
`"0x1234"` (normalizing to 4660); `D` has a usable route to the
coordinator whose next hop is the integer 4660. -/
def c5Devices : List Device :=
  [⟨"R1", JVal.jstr "0x1234", [], []⟩,
   ⟨"D", JVal.jnull, [], [⟨JVal.jint 0, JVal.jint 4660, "Active"⟩]⟩]

/-- Devices witnessing the amended C5: as `c5Devices` but with `R1`'s
nwk supplied as the plain integer 4660, which does resolve. -/
def c5DevicesInt : List Device :=
  [⟨"R1", JVal.jint 4660, [], []⟩,
   ⟨"D", JVal.jnull, [], [⟨JVal.jint 0, JVal.jint 4660, "Active"⟩]⟩]

/-- Nodes of the C10 counterexample. -/
def c10Nodes : List Node :=
  [⟨"C", "Coordinator", true⟩, ⟨"R1", "Router", false⟩, ⟨"E", "EndDevice", false⟩]

/-- Devices of the C10 counterexample: `E` reports `R1` as its Parent
with a (raw, negative) lqi of -7, which the coercion preserves. -/
def c10Devices : List Device :=
  [⟨"E", JVal.jnull, [⟨some "R1", JVal.jint (-7), "Parent", JVal.jnull⟩], []⟩]

/-- A cyclic primary-link map used as the C6 counterexample:
`A → B → Cc → B` with an unreachable coordinator `K`. -/
def c6Links : List (String × PLink) :=
  [("A", ⟨"B", some 1, "parent"⟩), ("B", ⟨"Cc", some 2, "parent"⟩),
   ("Cc", ⟨"B", some 3, "parent"⟩)]

/-- `main.py` `build_topology` lines 408-427: one edge per neighbor
entry with a truthy `ieee` (`neighbor.get("ieee", "")` defaults to the
falsy `""`), relationship defaulting to `"Unknown"`, and the lqi coerced
with `int(lqi_raw) if lqi_raw else 0` under `try/except → 0`. -/
def buildTopologyEdges (devs : List Device) : List Edge :=
  devs.flatMap (fun d =>
    d.neighbors.filterMap (fun nb =>
      match nb.ieee with
      | none => none
      | some nid =>
          if nid = "" then none
          else some ⟨d.ieee, nid,
            (if nb.relationship = "" then "Unknown" else nb.relationship),
            pyToInt nb.lqi⟩))

/-- Devices used in the C9 counterexample and witness: a neighbor
report with the out-of-range lqi 999. -/
def c9Devs : List Device :=
  [⟨"A", JVal.jnull, [⟨some "B", JVal.jint 999, "Sibling", JVal.jnull⟩], []⟩]

/-! ## Theorems -/

theorem canonKey_comm (a b : String) : canonKey a b = canonKey b a := by
  unfold canonKey
  rcases le_total a b with h | h
  · by_cases h2 : b ≤ a
    · have hab : a = b := le_antisymm h h2
      subst hab; simp
    · simp [h, h2]
  · by_cases h2 : a ≤ b
    · have hab : a = b := le_antisymm h2 h
      subst hab; simp
    · simp [h, h2]

theorem bestLink_foldl_spec (edges : List Edge)
    (m : String × String → Option Int) (k : String × String) :
    (edges.foldl bestLinkStep m) k = omax (m k) (maxOfList (reportsFor edges k)) := by
  induction edges generalizing m with
  | nil =>
      simp [reportsFor, maxOfList]
      cases m k <;> simp [omax]
  | cons e es ih =>
      have step : (List.foldl bestLinkStep m (e :: es)) k
          = (List.foldl bestLinkStep (bestLinkStep m e) es) k := rfl
      rw [step, ih]
      by_cases hk : canonKey e.source e.target = k
      · have hrep : reportsFor (e :: es) k = e.lqi :: reportsFor es k := by
          simp [reportsFor, List.filter, hk]
        rw [hrep]
        have hstep : (bestLinkStep m e) k =
            match m k with
            | none => some e.lqi
            | some v => some (max v e.lqi) := by
          unfold bestLinkStep
          rw [hk]
          cases hmk : m k with
          | none => simp [hmk]
          | some v =>
              by_cases hgt : e.lqi > v
              · simp [hmk, hgt, max_eq_right (le_of_lt hgt)]
              · simp [hmk, hgt, max_eq_left (not_lt.mp hgt)]
        rw [hstep]
        cases hmk : m k with
        | none =>
            cases hml : maxOfList (reportsFor es k) with
            | none => simp [omax, maxOfList, hml]
            | some mr => simp [omax, maxOfList, hml]
        | some v =>
            cases hml : maxOfList (reportsFor es k) with
            | none => simp [omax, maxOfList, hml]
            | some mr => simp [omax, maxOfList, hml, max_assoc]
      · have hrep : reportsFor (e :: es) k = reportsFor es k := by
          simp [reportsFor, List.filter, hk]
        have hstep : (bestLinkStep m e) k = m k := by
          unfold bestLinkStep
          have hk' : k ≠ canonKey e.source e.target := fun h => hk h.symm
          cases m (canonKey e.source e.target) with
          | none => simp [hk']
          | some v =>
              by_cases hgt : e.lqi > v
              · simp [hgt, hk']
              · simp [hgt]
        rw [hrep, hstep]

/-- C8: the Edge Reducer's lookup is symmetric and equals the maximum
lqi over all directional and duplicate reports for the unordered pair,
defaulting to 0 when no report for the pair exists. -/
theorem edge_reducer_symmetric_and_max (edges : List Edge) (a b : String) :
    get_link_lqi edges a b = get_link_lqi edges b a ∧
    get_link_lqi edges a b = (maxOfList (pairReports edges a b)).getD 0 := by
  constructor
  · unfold get_link_lqi
    rw [canonKey_comm]
  · unfold get_link_lqi bestLink
    rw [bestLink_foldl_spec]
    have : pairReports edges a b = reportsFor edges (canonKey a b) := rfl
    rw [this]
    cases maxOfList (reportsFor edges (canonKey a b)) <;> simp [omax]

/-- C7: absence of a Coordinator-typed device (equivalently, of an
`is_coordinator` node, which `build_topology` sets iff
`device_type == "Coordinator"`) makes `build_hierarchy` return the
falsy `{}` and makes `generate_visualization` raise; with a coordinator
present the run yields a hierarchy result. -/
theorem missing_coordinator_is_fatal (data : Snapshot)
    (h : ∀ n ∈ data.nodes, n.is_coordinator = (n.device_type == "Coordinator")) :
    ((¬ ∃ n ∈ data.nodes, n.device_type = "Coordinator") →
      build_hierarchy data = none ∧
      generate_visualization data =
        Except.error "Could not build hierarchy from topology data") ∧
    ((∃ n ∈ data.nodes, n.device_type = "Coordinator") →
      ∃ hr, build_hierarchy data = some hr ∧
        generate_visualization data = Except.ok hr) := by
  constructor
  · intro hno
    have hfind : data.nodes.find? (fun n => n.is_coordinator) = none := by
      rw [List.find?_eq_none]
      intro n hn hcoord
      refine hno ⟨n, hn, ?_⟩
      have hb : (n.device_type == "Coordinator") = true := by
        rw [← h n hn]; exact hcoord
      exact eq_of_beq hb
    constructor
    · unfold build_hierarchy
      rw [hfind]
    · unfold generate_visualization build_hierarchy
      rw [hfind]
  · rintro ⟨n, hn, htype⟩
    have hsome : (data.nodes.find? (fun n => n.is_coordinator)).isSome := by
      rw [List.find?_isSome]
      exact ⟨n, hn, by rw [h n hn, htype]; rfl⟩
    cases hfind : data.nodes.find? (fun n => n.is_coordinator) with
    | none => rw [hfind] at hsome; simp at hsome
    | some coord =>
        refine ⟨⟨coord, hierarchyPairs data.nodes data.edges coord⟩, ?_, ?_⟩
        · unfold build_hierarchy; rw [hfind]
        · unfold generate_visualization build_hierarchy; rw [hfind]

/-- Witness for C7 at a concrete snapshot with a coordinator. -/
theorem missing_coordinator_is_fatal_witness :
    ∃ hr, build_hierarchy snapC7 = some hr ∧
      generate_visualization snapC7 = Except.ok hr :=
  (missing_coordinator_is_fatal snapC7 (by decide)).2
    ⟨⟨"C", "Coordinator", true⟩, by simp [snapC7], rfl⟩

theorem lookupNode_mem_id {nodes : List Node} {x : String} {n : Node}
    (h : lookupNode nodes x = some n) : n ∈ nodes ∧ n.id = x := by
  unfold lookupNode at h
  refine ⟨List.mem_of_find?_eq_some h, ?_⟩
  have := List.find?_some h
  simpa using this

theorem alookup_mem {α : Type} {l : List (String × α)} {k : String} {v : α}
    (h : alookup l k = some v) : (k, v) ∈ l := by
  unfold alookup at h
  cases hf : l.find? (fun p => p.1 = k) with
  | none => rw [hf] at h; simp at h
  | some pr =>
      rw [hf] at h
      simp at h
      have hmem := List.mem_of_find?_eq_some hf
      have hkey : pr.1 = k := by simpa using List.find?_some hf
      have : pr = (k, v) := by
        cases pr with
        | mk a b => simp at hkey h; rw [hkey, h]
      rw [← this]; exact hmem

theorem updateAssoc_mem {α : Type} {l : List (String × α)} {k : String}
    {v : α} {x : String × α} (h : x ∈ updateAssoc l k v) :
    x = (k, v) ∨ x ∈ l := by
  induction l with
  | nil => simp [updateAssoc] at h; left; exact h
  | cons p t ih =>
      unfold updateAssoc at h
      by_cases hk : p.1 = k
      · rw [if_pos hk] at h
        rcases List.mem_cons.mp h with h1 | h1
        · left; exact h1
        · right; exact List.mem_cons_of_mem _ h1
      · rw [if_neg hk] at h
        rcases List.mem_cons.mp h with h1 | h1
        · right; rw [h1]; exact List.mem_cons_self _ _
        · rcases ih h1 with h2 | h2
          · left; exact h2
          · right; exact List.mem_cons_of_mem _ h2

theorem foldl_inv {α β : Type} {P : α → Prop} (f : α → β → α) (l : List β)
    (a : α) (h0 : P a) (hstep : ∀ a' b, b ∈ l → P a' → P (f a' b)) :
    P (l.foldl f a) := by
  induction l generalizing a with
  | nil => exact h0
  | cons b t ih =>
      exact ih (f a b) (hstep a b (List.mem_cons_self _ _) h0)
        (fun a' b' hb' => hstep a' b' (List.mem_cons_of_mem _ hb'))

/-- Every value stored in `end_device_parent` names a known
Router/Coordinator-typed node. -/
theorem endDeviceParent_values (nodes : List Node) (edges : List Edge) :
    ∀ entry ∈ endDeviceParent nodes edges,
      ∃ sn ∈ nodes, sn.id = entry.2.1 ∧
        (sn.device_type = "Router" ∨ sn.device_type = "Coordinator") := by
  unfold endDeviceParent
  apply foldl_inv
    (P := fun acc : List (String × (String × Int)) => ∀ entry ∈ acc,
      ∃ sn ∈ nodes, sn.id = entry.2.1 ∧
        (sn.device_type = "Router" ∨ sn.device_type = "Coordinator"))
  · simp
  · intro acc e _ hacc entry hentry
    unfold endDeviceParentStep at hentry
    by_cases hrel : e.relationship = "Child"
    · rw [if_pos hrel] at hentry
      cases hs : lookupNode nodes e.source with
      | none => rw [hs] at hentry; exact hacc entry hentry
      | some sn =>
          cases ht : lookupNode nodes e.target with
          | none => rw [hs, ht] at hentry; exact hacc entry hentry
          | some tn =>
              rw [hs, ht] at hentry
              dsimp only at hentry
              by_cases htype : (sn.device_type = "Router" ∨ sn.device_type = "Coordinator") ∧
                  tn.device_type = "EndDevice"
              · rw [if_pos htype] at hentry
                obtain ⟨hsmem, hsid⟩ := lookupNode_mem_id hs
                have hprov : ∃ sn' ∈ nodes, sn'.id = (e.source, e.lqi).1 ∧
                    (sn'.device_type = "Router" ∨ sn'.device_type = "Coordinator") :=
                  ⟨sn, hsmem, hsid, htype.1⟩
                cases hl : alookup acc e.target with
                | none =>
                    rw [hl] at hentry
                    rcases updateAssoc_mem hentry with h1 | h1
                    · rw [h1]; exact hprov
                    · exact hacc entry h1
                | some pr =>
                    rw [hl] at hentry
                    obtain ⟨q, l0⟩ := pr
                    dsimp only at hentry
                    by_cases hgt : e.lqi > l0
                    · rw [if_pos hgt] at hentry
                      rcases updateAssoc_mem hentry with h1 | h1
                      · rw [h1]; exact hprov
                      · exact hacc entry h1
                    · rw [if_neg hgt] at hentry
                      exact hacc entry hentry
              · rw [if_neg htype] at hentry
                exact hacc entry hentry
    · rw [if_neg hrel] at hentry
      exact hacc entry hentry

/-- The fallback edge scan returns the coordinator or a known
Router/Coordinator-typed node as parent. -/
theorem edgeScan_parent (nodes : List Node) (edges : List Edge)
    (coordId did : String) :
    (edgeScan nodes edges coordId did).2 = coordId ∨
      ∃ onode ∈ nodes, onode.id = (edgeScan nodes edges coordId did).2 ∧
        (onode.device_type = "Router" ∨ onode.device_type = "Coordinator") := by
  unfold edgeScan
  apply foldl_inv
    (P := fun best : Int × String => best.2 = coordId ∨
      ∃ onode ∈ nodes, onode.id = best.2 ∧
        (onode.device_type = "Router" ∨ onode.device_type = "Coordinator"))
  · left; rfl
  · intro acc e _ hacc
    by_cases htouch : e.source = did ∨ e.target = did
    · rw [if_pos htouch]
      dsimp only
      cases ho : lookupNode nodes (if e.source = did then e.target else e.source) with
      | none => exact hacc
      | some onode =>
          dsimp only
          by_cases htype : onode.device_type = "Router" ∨ onode.device_type = "Coordinator"
          · rw [if_pos htype]
            by_cases hgt : e.lqi > acc.1
            · rw [if_pos hgt]
              right
              obtain ⟨hm, hid⟩ := lookupNode_mem_id ho
              exact ⟨onode, hm, hid, htype⟩
            · rw [if_neg hgt]; exact hacc
          · rw [if_neg htype]; exact hacc
    · rw [if_neg htouch]; exact hacc

theorem routerPair_child (nodes : List Node) (edges : List Edge)
    (coordId : String) (r : Node) :
    (routerPair nodes edges coordId r).2.1 = r.id := by
  unfold routerPair
  cases alookup (routerParents nodes edges) r.id with
  | none => rfl
  | some pr => cases pr with | mk p l => rfl

theorem endDevicePair_child (nodes : List Node) (edges : List Edge)
    (coordId : String) (d : Node) :
    (endDevicePair nodes edges coordId d).2.1 = d.id := by
  unfold endDevicePair
  cases alookup (endDeviceParent nodes edges) d.id with
  | none => rfl
  | some pr => cases pr with | mk p l => rfl

theorem edPhase_mem (nodes : List Node) (edges : List Edge) (cid : String) :
    ∀ (l : List Node) (asg : List String),
      ∀ t ∈ edPhase nodes edges cid asg l,
        ∃ d ∈ l, t = endDevicePair nodes edges cid d ∧ d.id ∉ asg := by
  intro l
  induction l with
  | nil => intro asg t ht; simp [edPhase] at ht
  | cons d rest ih =>
      intro asg t ht
      by_cases hmem : d.id ∈ asg
      · rw [edPhase, if_pos hmem] at ht
        obtain ⟨d', hd', he, hn⟩ := ih asg t ht
        exact ⟨d', List.mem_cons_of_mem _ hd', he, hn⟩
      · rw [edPhase, if_neg hmem] at ht
        rcases List.mem_cons.mp ht with h1 | h1
        · exact ⟨d, List.mem_cons_self _ _, h1, hmem⟩
        · obtain ⟨d', hd', he, hn⟩ := ih (d.id :: asg) t h1
          exact ⟨d', List.mem_cons_of_mem _ hd', he,
            fun hc => hn (List.mem_cons_of_mem _ hc)⟩

theorem edPhase_child_not_assigned (nodes : List Node) (edges : List Edge)
    (cid : String) (l : List Node) (asg : List String) :
    ∀ t ∈ edPhase nodes edges cid asg l, t.2.1 ∉ asg := by
  intro t ht
  obtain ⟨d, _, he, hn⟩ := edPhase_mem nodes edges cid l asg t ht
  rw [he, endDevicePair_child]
  exact hn

theorem edPhase_children_nodup (nodes : List Node) (edges : List Edge)
    (cid : String) :
    ∀ (l : List Node) (asg : List String),
      ((edPhase nodes edges cid asg l).map (fun t => t.2.1)).Nodup := by
  intro l
  induction l with
  | nil => intro asg; simp [edPhase]
  | cons d rest ih =>
      intro asg
      by_cases hmem : d.id ∈ asg
      · rw [edPhase, if_pos hmem]; exact ih asg
      · rw [edPhase, if_neg hmem]
        rw [List.map_cons, endDevicePair_child, List.nodup_cons]
        refine ⟨?_, ih (d.id :: asg)⟩
        intro hc
        obtain ⟨t, ht, hte⟩ := List.mem_map.mp hc
        have := edPhase_child_not_assigned nodes edges cid rest (d.id :: asg) t ht
        rw [hte] at this
        exact this (List.mem_cons_self _ _)

theorem edPhase_covers (nodes : List Node) (edges : List Edge) (cid : String) :
    ∀ (l : List Node) (asg : List String), ∀ d ∈ l,
      d.id ∈ asg ∨ d.id ∈ (edPhase nodes edges cid asg l).map (fun t => t.2.1) := by
  intro l
  induction l with
  | nil => intro asg d hd; simp at hd
  | cons d0 rest ih =>
      intro asg d hd
      rcases List.mem_cons.mp hd with h1 | h1
      · subst h1
        by_cases hmem : d.id ∈ asg
        · left; exact hmem
        · right
          rw [edPhase, if_neg hmem, List.map_cons, endDevicePair_child]
          exact List.mem_cons_self _ _
      · by_cases hmem : d0.id ∈ asg
        · rw [edPhase, if_pos hmem]
          exact ih asg d h1
        · rw [edPhase, if_neg hmem, List.map_cons, endDevicePair_child]
          rcases ih (d0.id :: asg) d h1 with h2 | h2
          · rcases List.mem_cons.mp h2 with h3 | h3
            · right; rw [h3]; exact List.mem_cons_self _ _
            · left; exact h3
          · right; exact List.mem_cons_of_mem _ h2

theorem orphanPhase_mem (cid : String) :
    ∀ (l : List Node) (asg : List String),
      ∀ t ∈ orphanPhase cid asg l,
        t.1 = cid ∧ t.2.2 = none ∧ t.2.1 ∉ asg ∧ ∃ n ∈ l, n.id = t.2.1 := by
  intro l
  induction l with
  | nil => intro asg t ht; simp [orphanPhase] at ht
  | cons n rest ih =>
      intro asg t ht
      by_cases hmem : n.id ∈ asg
      · rw [orphanPhase, if_pos hmem] at ht
        obtain ⟨h1, h2, h3, n', hn', he⟩ := ih asg t ht
        exact ⟨h1, h2, h3, n', List.mem_cons_of_mem _ hn', he⟩
      · rw [orphanPhase, if_neg hmem] at ht
        rcases List.mem_cons.mp ht with h1 | h1
        · rw [h1]
          exact ⟨rfl, rfl, hmem, n, List.mem_cons_self _ _, rfl⟩
        · obtain ⟨h2, h3, h4, n', hn', he⟩ := ih (n.id :: asg) t h1
          exact ⟨h2, h3, fun hc => h4 (List.mem_cons_of_mem _ hc), n',
            List.mem_cons_of_mem _ hn', he⟩

theorem orphanPhase_children_nodup (cid : String) :
    ∀ (l : List Node) (asg : List String),
      ((orphanPhase cid asg l).map (fun t => t.2.1)).Nodup := by
  intro l
  induction l with
  | nil => intro asg; simp [orphanPhase]
  | cons n rest ih =>
      intro asg
      by_cases hmem : n.id ∈ asg
      · rw [orphanPhase, if_pos hmem]; exact ih asg
      · rw [orphanPhase, if_neg hmem, List.map_cons, List.nodup_cons]
        refine ⟨?_, ih (n.id :: asg)⟩
        intro hc
        obtain ⟨t, ht, hte⟩ := List.mem_map.mp hc
        obtain ⟨_, _, h3, _⟩ := orphanPhase_mem cid rest (n.id :: asg) t ht
        rw [hte] at h3
        exact h3 (List.mem_cons_self _ _)

theorem orphanPhase_covers (cid : String) :
    ∀ (l : List Node) (asg : List String), ∀ n ∈ l,
      n.id ∈ asg ∨ (cid, n.id, (none : Option Int)) ∈ orphanPhase cid asg l := by
  intro l
  induction l with
  | nil => intro asg n hn; simp at hn
  | cons n0 rest ih =>
      intro asg n hn
      rcases List.mem_cons.mp hn with h1 | h1
      · subst h1
        by_cases hmem : n.id ∈ asg
        · left; exact hmem
        · right
          rw [orphanPhase, if_neg hmem]
          exact List.mem_cons_self _ _
      · by_cases hmem : n0.id ∈ asg
        · rw [orphanPhase, if_pos hmem]
          exact ih asg n h1
        · rw [orphanPhase, if_neg hmem]
          rcases ih (n0.id :: asg) n h1 with h2 | h2
          · rcases List.mem_cons.mp h2 with h3 | h3
            · right; rw [h3]; exact List.mem_cons_self _ _
            · left; exact h3
          · right; exact List.mem_cons_of_mem _ h2

theorem routerPairs_children (nodes : List Node) (edges : List Edge)
    (coordId : String) :
    ((routersOf nodes).map (routerPair nodes edges coordId)).map (fun t => t.2.1)
      = (routersOf nodes).map Node.id := by
  rw [List.map_map]
  apply List.map_congr_left
  intro r _
  exact routerPair_child nodes edges coordId r

/-- Shared helper: with a coordinator present, the children lists are
duplicate-free and, together with the coordinator's id, cover exactly
the node-id set. -/
theorem childList_nodup_total (nodes : List Node) (edges : List Edge)
    (coord : Node) (hnd : (nodes.map Node.id).Nodup)
    (hco : nodes.find? (fun n => n.is_coordinator) = some coord) :
    (childList nodes edges coord).Nodup ∧
    ∀ id, (id ∈ childList nodes edges coord ∨ id = coord.id) ↔
      id ∈ nodes.map Node.id := by
  have hcmem : coord ∈ nodes := List.mem_of_find?_eq_some hco
  have hinj : ∀ a ∈ nodes, ∀ b ∈ nodes, a.id = b.id → a = b :=
    List.inj_on_of_nodup_map hnd
  have hA : ((routersOf nodes).map (routerPair nodes edges coord.id)).map
      (fun t => t.2.1) = (routersOf nodes).map Node.id :=
    routerPairs_children nodes edges coord.id
  have hAsub : List.Sublist ((routersOf nodes).map Node.id) (nodes.map Node.id) :=
    (List.filter_sublist nodes).map Node.id
  have hAnd : ((routersOf nodes).map Node.id).Nodup := hAsub.nodup hnd
  have hsplit : childList nodes edges coord =
      (routersOf nodes).map Node.id ++
        ((edPairsOf nodes edges coord.id).map (fun t => t.2.1) ++
          (orphanPhase coord.id (assigned2Of nodes edges coord.id) nodes).map
            (fun t => t.2.1)) := by
    unfold childList hierarchyPairs
    rw [List.map_append, List.map_append, hA, List.append_assoc]
  have hBnotasg : ∀ x ∈ (edPairsOf nodes edges coord.id).map (fun t => t.2.1),
      x ∉ assigned1Of nodes coord.id := by
    intro x hx
    obtain ⟨t, ht, hte⟩ := List.mem_map.mp hx
    have := edPhase_child_not_assigned nodes edges coord.id (endDevicesOf nodes)
      (assigned1Of nodes coord.id) t ht
    rw [hte] at this
    exact this
  have hCnotasg : ∀ x ∈ (orphanPhase coord.id (assigned2Of nodes edges coord.id)
      nodes).map (fun t => t.2.1), x ∉ assigned2Of nodes edges coord.id := by
    intro x hx
    obtain ⟨t, ht, hte⟩ := List.mem_map.mp hx
    obtain ⟨_, _, h3, _⟩ := orphanPhase_mem coord.id nodes
      (assigned2Of nodes edges coord.id) t ht
    rw [hte] at h3
    exact h3
  constructor
  · rw [hsplit]
    rw [List.nodup_append]
    refine ⟨hAnd, ?_, ?_⟩
    · rw [List.nodup_append]
      refine ⟨edPhase_children_nodup nodes edges coord.id _ _,
        orphanPhase_children_nodup coord.id _ _, ?_⟩
      intro x hxB hxC
      exact (hCnotasg x hxC) (List.mem_append_left _ hxB)
    · intro x hxA hxBC
      rcases List.mem_append.mp hxBC with hxB | hxC
      · exact (hBnotasg x hxB) (List.mem_cons_of_mem _ hxA)
      · exact (hCnotasg x hxC)
          (List.mem_append_right _ (List.mem_cons_of_mem _ hxA))
  · intro id
    constructor
    · rintro (hid | hid)
      · rw [hsplit] at hid
        rcases List.mem_append.mp hid with h1 | h1
        · exact hAsub.subset h1
        · rcases List.mem_append.mp h1 with h2 | h2
          · obtain ⟨t, ht, hte⟩ := List.mem_map.mp h2
            obtain ⟨d, hd, he, _⟩ := edPhase_mem nodes edges coord.id
              (endDevicesOf nodes) (assigned1Of nodes coord.id) t ht
            have hdn : d ∈ nodes := (List.mem_filter.mp hd).1
            have : t.2.1 = d.id := by rw [he, endDevicePair_child]
            rw [← hte, this]
            exact List.mem_map.mpr ⟨d, hdn, rfl⟩
          · obtain ⟨t, ht, hte⟩ := List.mem_map.mp h2
            obtain ⟨_, _, _, n, hn, hne⟩ := orphanPhase_mem coord.id nodes
              (assigned2Of nodes edges coord.id) t ht
            rw [← hte, ← hne]
            exact List.mem_map.mpr ⟨n, hn, rfl⟩
      · rw [hid]
        exact List.mem_map.mpr ⟨coord, hcmem, rfl⟩
    · intro hid
      obtain ⟨n, hn, hne⟩ := List.mem_map.mp hid
      by_cases hcid : id = coord.id
      · right; exact hcid
      · left
        rw [hsplit]
        by_cases hR : n.device_type = "Router"
        · apply List.mem_append_left
          have : n ∈ routersOf nodes := List.mem_filter.mpr ⟨hn, by simp [hR]⟩
          exact List.mem_map.mpr ⟨n, this, hne⟩
        · by_cases hE : n.device_type = "EndDevice"
          · have hnE : n ∈ endDevicesOf nodes := List.mem_filter.mpr ⟨hn, by simp [hE]⟩
            rcases edPhase_covers nodes edges coord.id (endDevicesOf nodes)
                (assigned1Of nodes coord.id) n hnE with h1 | h1
            · exfalso
              rcases List.mem_cons.mp h1 with h2 | h2
              · exact hcid (hne ▸ h2)
              · obtain ⟨r, hr, hre⟩ := List.mem_map.mp h2
                have hrn : r ∈ nodes := (List.mem_filter.mp hr).1
                have : r = n := hinj r hrn n hn hre
                have hRr : r.device_type = "Router" := by
                  have := (List.mem_filter.mp hr).2
                  simpa using this
                rw [this] at hRr
                exact hR hRr
            · apply List.mem_append_right
              apply List.mem_append_left
              rw [← hne]
              exact h1
          · rcases orphanPhase_covers coord.id nodes
                (assigned2Of nodes edges coord.id) n hn with h1 | h1
            · rcases List.mem_append.mp h1 with h2 | h2
              · apply List.mem_append_right
                apply List.mem_append_left
                rw [← hne]
                exact h2
              · exfalso
                rcases List.mem_cons.mp h2 with h3 | h3
                · exact hcid (hne ▸ h3)
                · obtain ⟨r, hr, hre⟩ := List.mem_map.mp h3
                  have hrn : r ∈ nodes := (List.mem_filter.mp hr).1
                  have : r = n := hinj r hrn n hn hre
                  have hRr : r.device_type = "Router" := by
                    have := (List.mem_filter.mp hr).2
                    simpa using this
                  rw [this] at hRr
                  exact hR hRr
            · apply List.mem_append_right
              apply List.mem_append_right
              rw [← hne]
              exact List.mem_map.mpr ⟨(coord.id, n.id, none), h1, rfl⟩

/-- C2: for every snapshot with unique node ids and a coordinator, the
Hierarchy Builder assigns every device to exactly one parent slot: no
device appears in more than one children entry, and the union of all
children lists plus the coordinator equals the full device set. -/
theorem hierarchy_children_exact_partition (nodes : List Node)
    (edges : List Edge) (coord : Node) (hnd : (nodes.map Node.id).Nodup)
    (hco : nodes.find? (fun n => n.is_coordinator) = some coord) :
    (childList nodes edges coord).Nodup ∧
    ∀ id, (id ∈ childList nodes edges coord ∨ id = coord.id) ↔
      id ∈ nodes.map Node.id :=
  childList_nodup_total nodes edges coord hnd hco

/-- Witness for C2 on the worked example. -/
theorem hierarchy_children_exact_partition_witness :
    (childList exNodes exEdges ⟨"C", "Coordinator", true⟩).Nodup ∧
    (("R1" ∈ childList exNodes exEdges ⟨"C", "Coordinator", true⟩ ∨
        "R1" = "C") ↔ "R1" ∈ exNodes.map Node.id) :=
  ⟨(hierarchy_children_exact_partition exNodes exEdges _ (by decide) rfl).1,
   (hierarchy_children_exact_partition exNodes exEdges _ (by decide) rfl).2 "R1"⟩

theorem routerPair_parent (nodes : List Node) (edges : List Edge)
    (coordId : String) (r : Node)
    (hH : ∀ e ∈ routerParents nodes edges, e.2.1 = coordId) :
    (routerPair nodes edges coordId r).1 = coordId := by
  unfold routerPair
  cases hl : alookup (routerParents nodes edges) r.id with
  | none => rfl
  | some pr =>
      obtain ⟨p, l⟩ := pr
      exact hH (r.id, (p, l)) (alookup_mem hl)

/-- Under trivial router-parent candidates, every appended triple's
parent is the coordinator or a known Router/Coordinator-typed node. -/
theorem hierarchyPairs_parent_analysis (nodes : List Node) (edges : List Edge)
    (coord : Node)
    (hH : ∀ e ∈ routerParents nodes edges, e.2.1 = coord.id) :
    ∀ t ∈ hierarchyPairs nodes edges coord,
      t.1 = coord.id ∨ ∃ sn ∈ nodes, sn.id = t.1 ∧
        (sn.device_type = "Router" ∨ sn.device_type = "Coordinator") := by
  intro t ht
  unfold hierarchyPairs at ht
  rcases List.mem_append.mp ht with h1 | h1
  · rcases List.mem_append.mp h1 with h2 | h2
    · obtain ⟨r, _, hre⟩ := List.mem_map.mp h2
      left
      rw [← hre]
      exact routerPair_parent nodes edges coord.id r hH
    · obtain ⟨d, _, he, _⟩ := edPhase_mem nodes edges coord.id
        (endDevicesOf nodes) (assigned1Of nodes coord.id) t h2
      rw [he]
      unfold endDevicePair
      cases hl : alookup (endDeviceParent nodes edges) d.id with
      | none =>
          dsimp only
          rcases edgeScan_parent nodes edges coord.id d.id with h3 | h3
          · left; exact h3
          · right; exact h3
      | some pr =>
          obtain ⟨p, l⟩ := pr
          dsimp only
          right
          have := endDeviceParent_values nodes edges (d.id, (p, l)) (alookup_mem hl)
          simpa using this
  · obtain ⟨hcid, _, _, _⟩ := orphanPhase_mem coord.id nodes
      (assigned2Of nodes edges coord.id) t h1
    left; exact hcid

/-- Under trivial router-parent candidates, every Router-typed node is
the child of a coordinator-parented triple. -/
theorem router_has_coord_pair (nodes : List Node) (edges : List Edge)
    (coord : Node) (sn : Node) (hsn : sn ∈ nodes)
    (hR : sn.device_type = "Router")
    (hH : ∀ e ∈ routerParents nodes edges, e.2.1 = coord.id) :
    ∃ lq', (coord.id, sn.id, lq') ∈ hierarchyPairs nodes edges coord := by
  have hmem : sn ∈ routersOf nodes := List.mem_filter.mpr ⟨hsn, by simp [hR]⟩
  refine ⟨(routerPair nodes edges coord.id sn).2.2, ?_⟩
  have heq : routerPair nodes edges coord.id sn =
      (coord.id, sn.id, (routerPair nodes edges coord.id sn).2.2) := by
    have h1 := routerPair_parent nodes edges coord.id sn hH
    have h2 := routerPair_child nodes edges coord.id sn
    rcases hrp : routerPair nodes edges coord.id sn with ⟨a, b, lqv⟩
    rw [hrp] at h1 h2
    simp at h1 h2
    rw [h1, h2]
  rw [← heq]
  unfold hierarchyPairs
  exact List.mem_append_left _ (List.mem_append_left _
    (List.mem_map.mpr ⟨sn, hmem, rfl⟩))

/-- C1 (amended): when every recorded router parent-candidate is the
coordinator itself, the parent assignment is acyclic and total — every
non-coordinator device occurs as a child exactly once and its parent
chain reaches the coordinator within two steps.  (Without that proviso
the claim fails: see the mutual-Parent counterexample.) -/
theorem hierarchy_rooted_when_router_parents_trivial (nodes : List Node)
    (edges : List Edge) (coord : Node)
    (hnd : (nodes.map Node.id).Nodup)
    (hco : nodes.find? (fun n => n.is_coordinator) = some coord)
    (hH : ∀ e ∈ routerParents nodes edges, e.2.1 = coord.id) :
    ∀ id ∈ nodes.map Node.id, id ≠ coord.id →
      (childList nodes edges coord).count id = 1 ∧
      ∃ p lq, (p, id, lq) ∈ hierarchyPairs nodes edges coord ∧
        (p = coord.id ∨
          ∃ lq', (coord.id, p, lq') ∈ hierarchyPairs nodes edges coord) := by
  intro id hid hncid
  obtain ⟨hnodup, htot⟩ := childList_nodup_total nodes edges coord hnd hco
  have hinj : ∀ a ∈ nodes, ∀ b ∈ nodes, a.id = b.id → a = b :=
    List.inj_on_of_nodup_map hnd
  have hmemc : id ∈ childList nodes edges coord := by
    rcases (htot id).mpr hid with h | h
    · exact h
    · exact absurd h hncid
  constructor
  · exact List.count_eq_one_of_mem hnodup hmemc
  · obtain ⟨t, ht, hte⟩ := List.mem_map.mp hmemc
    refine ⟨t.1, t.2.2, ?_, ?_⟩
    · have : t = (t.1, t.2.1, t.2.2) := rfl
      rw [← hte]
      rw [← this]
      exact ht
    · rcases hierarchyPairs_parent_analysis nodes edges coord hH t ht with h1 | h1
      · left; exact h1
      · obtain ⟨sn, hsn, hsnid, htype⟩ := h1
        by_cases hpc : t.1 = coord.id
        · left; exact hpc
        · right
          rcases htype with hR | hC
          · rw [← hsnid]
            exact router_has_coord_pair nodes edges coord sn hsn hR hH
          · rcases orphanPhase_covers coord.id nodes
                (assigned2Of nodes edges coord.id) sn hsn with h2 | h2
            · exfalso
              unfold assigned2Of at h2
              rcases List.mem_append.mp h2 with h3 | h3
              · obtain ⟨u, hu, hue⟩ := List.mem_map.mp h3
                obtain ⟨d, hd, hde, _⟩ := edPhase_mem nodes edges coord.id
                  (endDevicesOf nodes) (assigned1Of nodes coord.id) u hu
                have hdn : d ∈ nodes := (List.mem_filter.mp hd).1
                have hdE : d.device_type = "EndDevice" := by
                  have := (List.mem_filter.mp hd).2
                  simpa using this
                have hch : u.2.1 = d.id := by rw [hde, endDevicePair_child]
                have : d = sn := hinj d hdn sn hsn (by rw [← hch, hue, hsnid])
                rw [this] at hdE
                rw [hC] at hdE
                exact absurd hdE (by decide)
              · rcases List.mem_cons.mp h3 with h4 | h4
                · exact hpc (by rw [← hsnid, h4])
                · obtain ⟨r, hr, hre⟩ := List.mem_map.mp h4
                  have hrn : r ∈ nodes := (List.mem_filter.mp hr).1
                  have hrR : r.device_type = "Router" := by
                    have := (List.mem_filter.mp hr).2
                    simpa using this
                  have : r = sn := hinj r hrn sn hsn hre
                  rw [this] at hrR
                  rw [hC] at hrR
                  exact absurd hrR (by decide)
            · refine ⟨none, ?_⟩
              rw [← hsnid]
              unfold hierarchyPairs
              exact List.mem_append_right _ h2

/-- C1 counterexample: with mutually-inconsistent Parent reports the
builder produces the two-cycle `children[R2] = [R1]`,
`children[R1] = [R2]`; nothing is attached under the coordinator, so the
device `R1` is not reachable from the coordinator through the children
map, refuting acyclicity/reachability as claimed. -/
theorem hierarchy_cycle_counterexample :
    hierarchyPairs cyNodes cyEdges ⟨"C", "Coordinator", true⟩ =
      [("R2", "R1", some 10), ("R1", "R2", some 10)] ∧
    reachableFrom (hierarchyPairs cyNodes cyEdges ⟨"C", "Coordinator", true⟩)
      "C" = ["C"] ∧
    "R1" ∈ cyNodes.map Node.id ∧ "R1" ≠ "C" ∧
    "R1" ∉ reachableFrom
      (hierarchyPairs cyNodes cyEdges ⟨"C", "Coordinator", true⟩) "C" := by
  refine ⟨by decide, by decide, by decide, by decide, by decide⟩

/-- Witness for the amended C1 on the worked example. -/
theorem hierarchy_rooted_when_router_parents_trivial_witness :
    (childList exNodes exEdges ⟨"C", "Coordinator", true⟩).count "R1" = 1 ∧
    ∃ p lq, (p, "R1", lq) ∈ hierarchyPairs exNodes exEdges
        ⟨"C", "Coordinator", true⟩ ∧
      (p = "C" ∨ ∃ lq', ("C", p, lq') ∈ hierarchyPairs exNodes exEdges
        ⟨"C", "Coordinator", true⟩) :=
  hierarchy_rooted_when_router_parents_trivial exNodes exEdges
    ⟨"C", "Coordinator", true⟩ (by decide) rfl (by decide) "R1" (by decide)
    (by decide)

theorem pickBest_spec :
    ∀ (l : List (String × Int)) (b : Option String) (bl : Int) (p : String)
      (lq : Int), pickBest (b, bl) l = (some p, lq) →
      ((b = some p ∧ bl = lq) ∨ ((p, lq) ∈ l ∧ bl < lq)) ∧ ∀ x ∈ l, x.2 ≤ lq := by
  intro l
  induction l with
  | nil =>
      intro b bl p lq h
      rw [pickBest] at h
      obtain ⟨h1, h2⟩ := Prod.mk.injEq .. ▸ h
      exact ⟨Or.inl ⟨h1, h2⟩, by simp⟩
  | cons x rest ih =>
      intro b bl p lq h
      obtain ⟨q, m⟩ := x
      rw [pickBest] at h
      by_cases hgt : m > bl
      · rw [if_pos hgt] at h
        obtain ⟨hdisj, hmax⟩ := ih (some q) m p lq h
        have hmlq : m ≤ lq := by
          rcases hdisj with ⟨_, h2⟩ | ⟨_, h2⟩
          · exact le_of_eq h2
          · exact le_of_lt h2
        refine ⟨?_, ?_⟩
        · right
          rcases hdisj with ⟨h1, h2⟩ | ⟨h1, h2⟩
          · have : (p, lq) = (q, m) := by
              simp at h1
              rw [h1, h2]
            rw [this]
            exact ⟨List.mem_cons_self _ _, h2 ▸ hgt⟩
          · exact ⟨List.mem_cons_of_mem _ h1, lt_trans hgt h2⟩
        · intro y hy
          rcases List.mem_cons.mp hy with h1 | h1
          · rw [h1]; exact hmlq
          · exact hmax y h1
      · rw [if_neg hgt] at h
        obtain ⟨hdisj, hmax⟩ := ih b bl p lq h
        have hbllq : bl ≤ lq := by
          rcases hdisj with ⟨_, h2⟩ | ⟨_, h2⟩
          · exact le_of_eq h2
          · exact le_of_lt h2
        refine ⟨?_, ?_⟩
        · rcases hdisj with h1 | ⟨h1, h2⟩
          · left; exact h1
          · right; exact ⟨List.mem_cons_of_mem _ h1, h2⟩
        intro y hy
        rcases List.mem_cons.mp hy with h1 | h1
        · rw [h1]
          exact le_trans (not_lt.mp hgt) hbllq
        · exact hmax y h1

theorem foldBest_spec {l : List (String × Int)} {p : String} {lq : Int}
    (h : foldBest l = some (p, lq)) :
    (p, lq) ∈ l ∧ 0 ≤ lq ∧ ∀ x ∈ l, x.2 ≤ lq := by
  unfold foldBest at h
  cases hpb : pickBest (none, -1) l with
  | mk b bl =>
      rw [hpb] at h
      cases b with
      | none => simp at h
      | some p' =>
          simp at h
          obtain ⟨hp, hl⟩ := h
          rw [hp, hl] at hpb
          obtain ⟨hdisj, hmax⟩ := pickBest_spec l none (-1) p lq hpb
          rcases hdisj with ⟨h1, _⟩ | ⟨h1, h2⟩
          · simp at h1
          · exact ⟨h1, by omega, hmax⟩

theorem pass1_shape {dvs : List Device} {nds : List Node} {cid id : String}
    {pl : PLink} (h : pass1 dvs nds cid id = some pl) :
    pl.source_type = "route" ∧ ∃ l, pl.lqi = some l := by
  unfold pass1 at h
  cases hd : lookupDevice dvs id with
  | none => rw [hd] at h; simp at h
  | some dev =>
      rw [hd] at h
      cases hn : lookupNode nds id with
      | none => rw [hn] at h; simp at h
      | some nd =>
          rw [hn] at h
          dsimp only at h
          by_cases hc : nd.is_coordinator
          · rw [if_pos hc] at h; simp at h
          · rw [if_neg hc] at h
            rw [Option.map_eq_some'] at h
            obtain ⟨tl, _, he⟩ := h
            rw [← he]
            exact ⟨rfl, tl.2, rfl⟩

theorem pass2_shape {dvs : List Device} {nds : List Node} {id : String}
    {pl : PLink} (h : pass2 dvs nds id = some pl) :
    pl.source_type = "parent" ∧ ∃ l, pl.lqi = some l := by
  unfold pass2 at h
  cases hd : lookupDevice dvs id with
  | none => rw [hd] at h; simp at h
  | some dev =>
      rw [hd] at h
      cases hn : lookupNode nds id with
      | none => rw [hn] at h; simp at h
      | some nd =>
          rw [hn] at h
          dsimp only at h
          obtain ⟨nb, _, hnb⟩ := List.exists_of_findSome?_eq_some h
          by_cases hrel : nb.relationship = "Parent"
          · rw [if_pos hrel] at hnb
            cases hie : nb.ieee with
            | none => rw [hie] at hnb; simp at hnb
            | some q =>
                rw [hie] at hnb
                dsimp only at hnb
                by_cases hknown : q ≠ "" ∧ (lookupNode nds q).isSome
                · rw [if_pos hknown] at hnb
                  have : pl = ⟨q, some (pyToInt nb.lqi), "parent"⟩ := by
                    injection hnb with h'
                    exact h'.symm
                  rw [this]
                  exact ⟨rfl, pyToInt nb.lqi, rfl⟩
                · rw [if_neg hknown] at hnb; simp at hnb
          · rw [if_neg hrel] at hnb; simp at hnb

theorem pass3_shape {dvs : List Device} {nds : List Node} {id : String}
    {pl : PLink} (h : pass3 dvs nds id = some pl) :
    pl.source_type = "parent" ∧ ∃ l, pl.lqi = some l ∧ 0 ≤ l ∧
      (pl.target, l) ∈ childReports dvs nds id ∧
      ∀ x ∈ childReports dvs nds id, x.2 ≤ l := by
  unfold pass3 at h
  cases hn : lookupNode nds id with
  | none => rw [hn] at h; simp at h
  | some nd =>
      rw [hn] at h
      dsimp only at h
      by_cases hc : nd.is_coordinator
      · rw [if_pos hc] at h; simp at h
      · rw [if_neg hc] at h
        rw [Option.map_eq_some'] at h
        obtain ⟨pr, hfb, he⟩ := h
        obtain ⟨p, lq⟩ := pr
        obtain ⟨hmem, hnn, hmax⟩ := foldBest_spec hfb
        rw [← he]
        exact ⟨rfl, lq, rfl, hnn, hmem, hmax⟩

theorem pass4_shape {dvs : List Device} {nds : List Node} {id : String}
    {pl : PLink} (h : pass4 dvs nds id = some pl) :
    pl.source_type = "neighbor" ∧ ∃ l, pl.lqi = some l ∧ 0 ≤ l := by
  unfold pass4 at h
  cases hd : lookupDevice dvs id with
  | none => rw [hd] at h; simp at h
  | some dev =>
      rw [hd] at h
      cases hn : lookupNode nds id with
      | none => rw [hn] at h; simp at h
      | some nd =>
          rw [hn] at h
          dsimp only at h
          by_cases hc : nd.is_coordinator
          · rw [if_pos hc] at h; simp at h
          · rw [if_neg hc] at h
            rw [Option.map_eq_some'] at h
            obtain ⟨pr, hfb, he⟩ := h
            obtain ⟨p, lq⟩ := pr
            obtain ⟨_, hnn, _⟩ := foldBest_spec hfb
            rw [← he]
            exact ⟨rfl, lq, rfl, hnn⟩

theorem pass5_shape {nds : List Node} {cid id : String} {pl : PLink}
    (h : pass5 nds cid id = some pl) : pl = ⟨cid, none, "fallback"⟩ := by
  unfold pass5 at h
  by_cases hg : (lookupNode nds id).isSome ∧ id ≠ cid
  · rw [if_pos hg] at h
    injection h with h'
    exact h'.symm
  · rw [if_neg hg] at h; simp at h

theorem primaryLink_cases {dvs : List Device} {nds : List Node}
    {cid id : String} {pl : PLink} (h : primaryLink dvs nds cid id = some pl) :
    pass1 dvs nds cid id = some pl ∨ pass2 dvs nds id = some pl ∨
    pass3 dvs nds id = some pl ∨ pass4 dvs nds id = some pl ∨
    pass5 nds cid id = some pl := by
  unfold primaryLink at h
  cases h1 : pass1 dvs nds cid id with
  | some x => rw [h1] at h; simp [Option.orElse] at h; left; rw [← h]
  | none =>
      rw [h1] at h
      cases h2 : pass2 dvs nds id with
      | some x => rw [h2] at h; simp [Option.orElse] at h; right; left; rw [← h]
      | none =>
          rw [h2] at h
          cases h3 : pass3 dvs nds id with
          | some x =>
              rw [h3] at h; simp [Option.orElse] at h
              right; right; left; rw [← h]
          | none =>
              rw [h3] at h
              cases h4 : pass4 dvs nds id with
              | some x =>
                  rw [h4] at h; simp [Option.orElse] at h
                  right; right; right; left; rw [← h]
              | none =>
                  rw [h4] at h; simp [Option.orElse] at h
                  right; right; right; right; rw [← h]

theorem lookupNode_self {nodes : List Node} {n : Node}
    (hnd : (nodes.map Node.id).Nodup) (hmem : n ∈ nodes) :
    lookupNode nodes n.id = some n := by
  cases hl : lookupNode nodes n.id with
  | none =>
      exfalso
      unfold lookupNode at hl
      rw [List.find?_eq_none] at hl
      exact hl n hmem (by simp)
  | some m =>
      obtain ⟨hm, hid⟩ := lookupNode_mem_id hl
      have := List.inj_on_of_nodup_map hnd hm hmem hid
      rw [this]

/-- C3 (amended): every non-coordinator node gets exactly one
PrimaryLink (the fallback pass guarantees totality), while the
coordinator's entry is exactly whatever the parent-relationship pass
yields — that pass does not exclude the coordinator, so a coordinator
reporting a Parent-marked known neighbor also receives a PrimaryLink. -/
theorem primaryLink_total_and_coordinator (dvs : List Device)
    (nds : List Node) (coord : Node)
    (hnd : (nds.map Node.id).Nodup)
    (hco : nds.find? (fun n => n.is_coordinator) = some coord) :
    (∀ id ∈ nds.map Node.id, id ≠ coord.id →
      (primaryLink dvs nds coord.id id).isSome) ∧
    primaryLink dvs nds coord.id coord.id = pass2 dvs nds coord.id := by
  have hcmem : coord ∈ nds := List.mem_of_find?_eq_some hco
  have hcoordflag : coord.is_coordinator = true := by
    simpa using List.find?_some hco
  have hcl : lookupNode nds coord.id = some coord := lookupNode_self hnd hcmem
  constructor
  · intro id hid hncid
    have h5 : pass5 nds coord.id id = some ⟨coord.id, none, "fallback"⟩ := by
      unfold pass5
      rw [if_pos]
      constructor
      · obtain ⟨n, hn, hne⟩ := List.mem_map.mp hid
        unfold lookupNode
        rw [List.find?_isSome]
        exact ⟨n, hn, by simp [hne]⟩
      · exact hncid
    unfold primaryLink
    cases pass1 dvs nds coord.id id with
    | some x => simp [Option.orElse]
    | none =>
        cases pass2 dvs nds id with
        | some x => simp [Option.orElse]
        | none =>
            cases pass3 dvs nds id with
            | some x => simp [Option.orElse]
            | none =>
                cases pass4 dvs nds id with
                | some x => simp [Option.orElse]
                | none => simp [Option.orElse, h5]
  · have h1 : pass1 dvs nds coord.id coord.id = none := by
      unfold pass1
      cases lookupDevice dvs coord.id with
      | none => rfl
      | some dev =>
          rw [hcl]
          dsimp only
          rw [if_pos hcoordflag]
    have h3 : pass3 dvs nds coord.id = none := by
      unfold pass3
      rw [hcl]
      dsimp only
      rw [if_pos hcoordflag]
    have h4 : pass4 dvs nds coord.id = none := by
      unfold pass4
      cases lookupDevice dvs coord.id with
      | none => rfl
      | some dev =>
          rw [hcl]
          dsimp only
          rw [if_pos hcoordflag]
    have h5 : pass5 nds coord.id coord.id = none := by
      unfold pass5
      rw [if_neg]
      simp
    unfold primaryLink
    rw [h1]
    cases h2 : pass2 dvs nds coord.id with
    | some x => simp [Option.orElse]
    | none => simp [Option.orElse, h3, h4, h5]

/-- C3 counterexample: the coordinator receives a PrimaryLink (from the
parent pass, which never skips the coordinator), refuting "the
coordinator has none, regardless of what it reports". -/
theorem primaryLink_coordinator_counterexample :
    primaryLink c3Devices c3Nodes "C" "C" =
      some ⟨"R1", some 10, "parent"⟩ ∧
    primaryLink c3Devices c3Nodes "C" "C" ≠ none := by
  refine ⟨by decide, by decide⟩

/-- Witness for the amended C3 at concrete data. -/
theorem primaryLink_total_and_coordinator_witness :
    (primaryLink c3Devices c3Nodes "C" "R1").isSome ∧
    primaryLink c3Devices c3Nodes "C" "C" = pass2 c3Devices c3Nodes "C" :=
  ⟨(primaryLink_total_and_coordinator c3Devices c3Nodes
      ⟨"C", "Coordinator", true⟩ (by decide) rfl).1 "R1" (by decide) (by decide),
   (primaryLink_total_and_coordinator c3Devices c3Nodes
      ⟨"C", "Coordinator", true⟩ (by decide) rfl).2⟩

/-- C4 (amended): when a device has no usable route and no own
Parent-marked known neighbor but some Router/Coordinator-typed known
device reports it as a `Child`, the child-scan pass resolves the link,
targeting a highest-lqi reporter — but the stored `sourceType` is
`"parent"`, not `"neighbor"` (`visualize.py` line 282). -/
theorem childscan_link_parent_sourced (dvs : List Device) (nds : List Node)
    (cid id : String) (pl : PLink)
    (h1 : pass1 dvs nds cid id = none) (h2 : pass2 dvs nds id = none)
    (h3 : pass3 dvs nds id = some pl) :
    primaryLink dvs nds cid id = some pl ∧ pl.source_type = "parent" ∧
    ∃ l, pl.lqi = some l ∧ 0 ≤ l ∧ (pl.target, l) ∈ childReports dvs nds id ∧
      ∀ x ∈ childReports dvs nds id, x.2 ≤ l := by
  obtain ⟨hst, hrest⟩ := pass3_shape h3
  refine ⟨?_, hst, hrest⟩
  unfold primaryLink
  rw [h1, h2, h3]
  simp [Option.orElse]

/-- C4 counterexample: the resulting PrimaryLink for `E` carries
`sourceType = "parent"`, not `"neighbor"` as the claim states. -/
theorem childscan_sourcetype_counterexample :
    primaryLink c4Devices c4Nodes "C" "E" =
      some ⟨"R1", some 100, "parent"⟩ ∧
    (primaryLink c4Devices c4Nodes "C" "E").map PLink.source_type ≠
      some "neighbor" := by
  refine ⟨by decide, by decide⟩

/-- Witness for the amended C4 at the same data. -/
theorem childscan_link_parent_sourced_witness :
    primaryLink c4Devices c4Nodes "C" "E" =
      some ⟨"R1", some 100, "parent"⟩ ∧
    (⟨"R1", some 100, "parent"⟩ : PLink).source_type = "parent" ∧
    ∃ l, (⟨"R1", some 100, "parent"⟩ : PLink).lqi = some l ∧ 0 ≤ l ∧
      ((⟨"R1", some 100, "parent"⟩ : PLink).target, l) ∈
        childReports c4Devices c4Nodes "E" ∧
      ∀ x ∈ childReports c4Devices c4Nodes "E", x.2 ≤ l :=
  childscan_link_parent_sourced c4Devices c4Nodes "C" "E"
    ⟨"R1", some 100, "parent"⟩ (by decide) (by decide) (by decide)

/-- The raw-keyed `nwk → ieee` index only ever resolves devices whose
`nwk` field was supplied as the plain (non-zero) integer `nh`. -/
theorem nwkToIeee_resolves_raw_int (dvs : List Device) (nh : Int) (i : String)
    (h : nwkToIeee dvs nh = some i) :
    nh ≠ 0 ∧ ∃ d ∈ dvs, d.ieee = i ∧ d.nwk = JVal.jint nh := by
  unfold nwkToIeee at h
  rw [Option.map_eq_some'] at h
  obtain ⟨d, hlast, hie⟩ := h
  have hmem := List.mem_of_getLast?_eq_some hlast
  rw [List.mem_filter] at hmem
  obtain ⟨hd, hcond⟩ := hmem
  have hcond' : d.nwk.truthy = true ∧ d.nwk = JVal.jint nh := by
    simpa using hcond
  obtain ⟨htr, hnwk⟩ := hcond'
  refine ⟨?_, d, hd, hie, hnwk⟩
  intro h0
  rw [hnwk, h0] at htr
  simp [JVal.truthy] at htr

/-- C5 (amended): a route-pass PrimaryLink always wins the cascade with
`sourceType = "route"`, and its non-coordinator target is always a
device whose `nwk` was supplied as a plain integer — the `nwk → ieee`
index is keyed by the RAW value but queried with the normalized integer
next hop, so decimal-string or hex-string `nwk` values never match. -/
theorem route_pass_resolution (dvs : List Device) (nds : List Node)
    (cid id : String) (pl : PLink)
    (h : pass1 dvs nds cid id = some pl) :
    primaryLink dvs nds cid id = some pl ∧ pl.source_type = "route" ∧
    (pl.target = cid ∨
      ∃ d ∈ dvs, ∃ nh : Int, nh ≠ 0 ∧ d.ieee = pl.target ∧
        d.nwk = JVal.jint nh) := by
  refine ⟨?_, (pass1_shape h).1, ?_⟩
  · unfold primaryLink
    rw [h]
    simp [Option.orElse]
  · unfold pass1 at h
    cases hd : lookupDevice dvs id with
    | none => rw [hd] at h; simp at h
    | some dev =>
        rw [hd] at h
        cases hn : lookupNode nds id with
        | none => rw [hn] at h; simp at h
        | some nd =>
            rw [hn] at h
            dsimp only at h
            by_cases hc : nd.is_coordinator
            · rw [if_pos hc] at h; simp at h
            · rw [if_neg hc] at h
              rw [Option.map_eq_some'] at h
              obtain ⟨tl, hfs, he⟩ := h
              obtain ⟨r, _, hr⟩ := List.exists_of_findSome?_eq_some hfs
              unfold routeTry at hr
              by_cases hst : r.route_status = "Active" ∨
                  r.route_status = "Validation_Underway"
              · rw [if_pos hst] at hr
                cases hdest : nwk_to_int r.dest_nwk with
                | none => rw [hdest] at hr; simp at hr
                | some dv =>
                    rw [hdest] at hr
                    dsimp only at hr
                    by_cases hdz : dv = 0
                    · rw [if_pos hdz] at hr
                      cases hnh : nwk_to_int r.next_hop with
                      | none => rw [hnh] at hr; simp at hr
                      | some nh =>
                          rw [hnh] at hr
                          dsimp only at hr
                          by_cases hz : nh = 0
                          · rw [if_pos hz] at hr
                            dsimp only at hr
                            by_cases hknown : cid ≠ "" ∧ (lookupNode nds cid).isSome
                            · rw [if_pos hknown] at hr
                              left
                              injection hr with hr'
                              rw [← he, ← hr']
                            · rw [if_neg hknown] at hr; simp at hr
                          · rw [if_neg hz] at hr
                            cases hni : nwkToIeee dvs nh with
                            | none => rw [hni] at hr; simp at hr
                            | some t =>
                                rw [hni] at hr
                                dsimp only at hr
                                by_cases hknown : t ≠ "" ∧ (lookupNode nds t).isSome
                                · rw [if_pos hknown] at hr
                                  right
                                  injection hr with hr'
                                  obtain ⟨hz', d, hdmem, hie, hnwk⟩ :=
                                    nwkToIeee_resolves_raw_int dvs nh t hni
                                  refine ⟨d, hdmem, nh, hz', ?_, hnwk⟩
                                  rw [← he, ← hr']
                                  exact hie
                                · rw [if_neg hknown] at hr; simp at hr
                    · rw [if_neg hdz] at hr; simp at hr
              · rw [if_neg hst] at hr; simp at hr

/-- C5 counterexample: although `D`'s usable route's normalized next hop
(4660) equals the normalized nwk of the known device `R1`, the raw-keyed
index lookup fails and `D` falls through to the fallback pass — the
claim's "regardless of decimal string or hex-prefixed string" is false. -/
theorem route_string_nwk_counterexample :
    nwk_to_int (JVal.jstr "0x1234") = some 4660 ∧
    primaryLink c5Devices c5Nodes "C" "D" = some ⟨"C", none, "fallback"⟩ ∧
    (primaryLink c5Devices c5Nodes "C" "D").map PLink.source_type ≠
      some "route" := by
  refine ⟨by decide, by decide, by decide⟩

/-- Witness for the amended C5: with the integer-supplied nwk the route
pass resolves, wins the cascade, and its target is integer-keyed. -/
theorem route_pass_resolution_witness :
    primaryLink c5DevicesInt c5Nodes "C" "D" =
      some ⟨"R1", some 0, "route"⟩ ∧
    (⟨"R1", some 0, "route"⟩ : PLink).source_type = "route" ∧
    ((⟨"R1", some 0, "route"⟩ : PLink).target = "C" ∨
      ∃ d ∈ c5DevicesInt, ∃ nh : Int, nh ≠ 0 ∧
        d.ieee = (⟨"R1", some 0, "route"⟩ : PLink).target ∧
        d.nwk = JVal.jint nh) :=
  route_pass_resolution c5DevicesInt c5Nodes "C" "D"
    ⟨"R1", some 0, "route"⟩ (by decide)

/-- C10 (amended): a PrimaryLink's lqi is null exactly when its
sourceType is `"fallback"`, and `"neighbor"`-sourced links always carry
a non-negative lqi; `"route"`/`"parent"`-sourced links carry an integer
lqi which may be negative when the raw report was negative. -/
theorem plink_lqi_null_iff_fallback (dvs : List Device) (nds : List Node)
    (cid id : String) (pl : PLink)
    (h : primaryLink dvs nds cid id = some pl) :
    (pl.lqi = none ↔ pl.source_type = "fallback") ∧
    (pl.source_type = "neighbor" → ∃ l, pl.lqi = some l ∧ 0 ≤ l) := by
  rcases primaryLink_cases h with h1 | h2 | h3 | h4 | h5
  · obtain ⟨hst, l, hl⟩ := pass1_shape h1
    constructor
    · rw [hst, hl]
      constructor
      · intro hc; exact absurd hc (by simp)
      · intro hc; exact absurd hc (by decide)
    · intro hc; rw [hst] at hc; exact absurd hc (by decide)
  · obtain ⟨hst, l, hl⟩ := pass2_shape h2
    constructor
    · rw [hst, hl]
      constructor
      · intro hc; exact absurd hc (by simp)
      · intro hc; exact absurd hc (by decide)
    · intro hc; rw [hst] at hc; exact absurd hc (by decide)
  · obtain ⟨hst, l, hl, _⟩ := pass3_shape h3
    constructor
    · rw [hst, hl]
      constructor
      · intro hc; exact absurd hc (by simp)
      · intro hc; exact absurd hc (by decide)
    · intro hc; rw [hst] at hc; exact absurd hc (by decide)
  · obtain ⟨hst, l, hl, hnn⟩ := pass4_shape h4
    refine ⟨?_, fun _ => ⟨l, hl, hnn⟩⟩
    rw [hst, hl]
    constructor
    · intro hc; exact absurd hc (by simp)
    · intro hc; exact absurd hc (by decide)
  · rw [pass5_shape h5]
    constructor
    · simp
    · intro hc
      dsimp only at hc
      exact absurd hc (by decide)

/-- C10 counterexample: a parent-sourced PrimaryLink carrying a negative
lqi, refuting "route/parent/neighbor links always carry a non-negative
integer lqi". -/
theorem negative_parent_lqi_counterexample :
    primaryLink c10Devices c10Nodes "C" "E" =
      some ⟨"R1", some (-7), "parent"⟩ ∧
    ¬ (0 ≤ (-7 : Int)) := by
  refine ⟨by decide, by decide⟩

/-- Witness for the amended C10 on the fallback case of the same data. -/
theorem plink_lqi_null_iff_fallback_witness :
    (((⟨"C", none, "fallback"⟩ : PLink).lqi = none ↔
      (⟨"C", none, "fallback"⟩ : PLink).source_type = "fallback") ∧
    ((⟨"C", none, "fallback"⟩ : PLink).source_type = "neighbor" →
      ∃ l, (⟨"C", none, "fallback"⟩ : PLink).lqi = some l ∧ 0 ≤ l)) :=
  plink_lqi_null_iff_fallback c10Devices c10Nodes "C" "R1"
    ⟨"C", none, "fallback"⟩ (by decide)

theorem filter_ne_length_lt {l : List String} {a : String} (h : a ∈ l) :
    (l.filter (fun x => x ≠ a)).length < l.length := by
  induction l with
  | nil => simp at h
  | cons b t ih =>
      rw [List.filter_cons]
      by_cases hb : b = a
      · rw [if_neg (by simp [hb])]
        have hle : (t.filter (fun x => decide (x ≠ a))).length ≤ t.length :=
          List.length_filter_le _ _
        simp only [List.length_cons]
        omega
      · rw [if_pos (by simp [hb])]
        have h1 : a ∈ t := by
          rcases List.mem_cons.mp h with h2 | h2
          · exact absurd h2.symm hb
          · exact h2
        simp only [List.length_cons]
        exact Nat.succ_lt_succ (ih h1)

theorem walkAux_append (links : List (String × PLink)) (cid : String) :
    ∀ (fuel : Nat) (cur : String) (vis : List String) (p : List PathHop),
      walkAux links cid fuel cur vis p = p ++ walkAux links cid fuel cur vis [] := by
  intro fuel
  induction fuel with
  | zero => intro cur vis p; simp [walkAux]
  | succ f ih =>
      intro cur vis p
      simp only [walkAux]
      by_cases h1 : cur = ""
      · rw [if_pos h1, if_pos h1]; simp
      · rw [if_neg h1, if_neg h1]
        by_cases h2 : cur = cid
        · rw [if_pos h2, if_pos h2]; simp
        · rw [if_neg h2, if_neg h2]
          by_cases h3 : cur ∈ vis
          · rw [if_pos h3, if_pos h3]; simp
          · rw [if_neg h3, if_neg h3]
            cases hl : lookupLink links cur with
            | none => simp
            | some link =>
                dsimp only
                rw [ih link.target (cur :: vis)
                      (p ++ [(link.target, link.lqi)]),
                    ih link.target (cur :: vis)
                      ([] ++ [(link.target, link.lqi)])]
                simp

theorem walkAux_ne_nil_guards (links : List (String × PLink)) (cid : String) :
    ∀ (f : Nat) (cur : String) (vis : List String),
      walkAux links cid f cur vis [] ≠ [] →
      cur ∉ vis ∧ cur ≠ cid ∧ cur ≠ "" := by
  intro f cur vis h
  cases f with
  | zero => exact absurd rfl h
  | succ f' =>
      rw [walkAux] at h
      by_cases h1 : cur = ""
      · rw [if_pos h1] at h; exact absurd rfl h
      · rw [if_neg h1] at h
        by_cases h2 : cur = cid
        · rw [if_pos h2] at h; exact absurd rfl h
        · rw [if_neg h2] at h
          by_cases h3 : cur ∈ vis
          · rw [if_pos h3] at h; exact absurd rfl h
          · exact ⟨h3, h2, h1⟩

theorem walkAux_dropLast_nodup (links : List (String × PLink)) (cid : String) :
    ∀ (f : Nat) (cur : String) (vis : List String),
      ((walkAux links cid f cur vis []).map Prod.fst).dropLast.Nodup ∧
      ∀ x ∈ ((walkAux links cid f cur vis []).map Prod.fst).dropLast,
        x ∉ cur :: vis := by
  intro f
  induction f with
  | zero => intro cur vis; simp [walkAux]
  | succ f ih =>
      intro cur vis
      by_cases h1 : cur = ""
      · rw [walkAux, if_pos h1]; simp
      · by_cases h2 : cur = cid
        · rw [walkAux, if_neg h1, if_pos h2]; simp
        · by_cases h3 : cur ∈ vis
          · rw [walkAux, if_neg h1, if_neg h2, if_pos h3]; simp
          · cases hl : lookupLink links cur with
            | none => rw [walkAux, if_neg h1, if_neg h2, if_neg h3, hl]; simp
            | some link =>
                have hrw : walkAux links cid (f + 1) cur vis [] =
                    (link.target, link.lqi) ::
                      walkAux links cid f link.target (cur :: vis) [] := by
                  rw [walkAux, if_neg h1, if_neg h2, if_neg h3, hl]
                  dsimp only
                  rw [walkAux_append links cid f link.target (cur :: vis)
                    ([] ++ [(link.target, link.lqi)])]
                  simp
                rw [hrw]
                by_cases hWe : walkAux links cid f link.target (cur :: vis) [] = []
                · rw [hWe]; simp
                · obtain ⟨hnv, hnc, hne⟩ :=
                    walkAux_ne_nil_guards links cid f link.target (cur :: vis) hWe
                  obtain ⟨ihn, ihm⟩ := ih link.target (cur :: vis)
                  have hmne :
                      (walkAux links cid f link.target (cur :: vis) []).map
                        Prod.fst ≠ [] := by
                    simpa using hWe
                  rw [List.map_cons, List.dropLast_cons_of_ne_nil hmne]
                  constructor
                  · rw [List.nodup_cons]
                    refine ⟨?_, ihn⟩
                    intro hc
                    exact (ihm _ hc) (List.mem_cons_self _ _)
                  · intro x hx
                    rcases List.mem_cons.mp hx with hx1 | hx1
                    · rw [hx1]; exact hnv
                    · intro hc
                      exact (ihm x hx1) (List.mem_cons_of_mem _ hc)

theorem walkAux_length (links : List (String × PLink)) (cid : String) :
    ∀ (f : Nat) (cur : String) (vis : List String) (p : List PathHop),
      (walkAux links cid f cur vis p).length ≤
        p.length + ((links.map Prod.fst).filter (fun k => k ∉ vis)).length := by
  intro f
  induction f with
  | zero => intro cur vis p; simp [walkAux]
  | succ f ih =>
      intro cur vis p
      rw [walkAux]
      by_cases h1 : cur = ""
      · rw [if_pos h1]; exact Nat.le_add_right _ _
      · rw [if_neg h1]
        by_cases h2 : cur = cid
        · rw [if_pos h2]; exact Nat.le_add_right _ _
        · rw [if_neg h2]
          by_cases h3 : cur ∈ vis
          · rw [if_pos h3]; exact Nat.le_add_right _ _
          · rw [if_neg h3]
            cases hl : lookupLink links cur with
            | none => exact Nat.le_add_right _ _
            | some link =>
                dsimp only
                have hih := ih link.target (cur :: vis)
                  (p ++ [(link.target, link.lqi)])
                have hcurmem : cur ∈ links.map Prod.fst := by
                  unfold lookupLink at hl
                  cases hf : links.find? (fun pr => pr.1 = cur) with
                  | none => rw [hf] at hl; simp at hl
                  | some pr =>
                      have hm := List.mem_of_find?_eq_some hf
                      have hkey : pr.1 = cur := by
                        simpa using List.find?_some hf
                      rw [← hkey]
                      exact List.mem_map.mpr ⟨pr, hm, rfl⟩
                have heqf :
                    (links.map Prod.fst).filter (fun k => k ∉ cur :: vis) =
                    ((links.map Prod.fst).filter (fun k => k ∉ vis)).filter
                      (fun k => k ≠ cur) := by
                  rw [List.filter_filter]
                  apply List.filter_congr
                  intro a _
                  by_cases ha1 : a = cur <;> by_cases ha2 : a ∈ vis <;>
                    simp [ha1, ha2]
                have hcurf : cur ∈ (links.map Prod.fst).filter
                    (fun k => k ∉ vis) :=
                  List.mem_filter.mpr ⟨hcurmem, by simp [h3]⟩
                have hstrict :
                    (((links.map Prod.fst).filter (fun k => k ∉ vis)).filter
                      (fun k => k ≠ cur)).length <
                    ((links.map Prod.fst).filter (fun k => k ∉ vis)).length :=
                  filter_ne_length_lt hcurf
                rw [heqf] at hih
                have hplen : (p ++ [(link.target, link.lqi)]).length
                    = p.length + 1 := by simp
                rw [hplen] at hih
                omega

/-- C6 (amended): the path walk terminates with at most one hop per
link-map entry (hence at most the device count when the link map's keys
are among the device ids), the hop ids are pairwise distinct except that
the final hop may repeat an earlier one (the walk appends the parent
before the visited-set detects the revisit), and the coordinator's own
path is empty. -/
theorem path_walk_properties (links : List (String × PLink)) (cid s : String)
    (nodeIds : List String)
    (hkeys : ∀ k ∈ links.map Prod.fst, k ∈ nodeIds)
    (hknd : (links.map Prod.fst).Nodup) (hnnd : nodeIds.Nodup) :
    devicePath links cid cid = [] ∧
    (devicePath links cid s).length ≤ links.length ∧
    ((devicePath links cid s).map Prod.fst).dropLast.Nodup ∧
    (devicePath links cid s).length ≤ nodeIds.length := by
  have hp1 : devicePath links cid cid = [] := by
    unfold devicePath
    rw [if_pos rfl]
  have hp2 : (devicePath links cid s).length ≤ links.length := by
    unfold devicePath
    by_cases hs : s = cid
    · rw [if_pos hs]; simp
    · rw [if_neg hs]
      have := walkAux_length links cid (links.length + 1) s [] []
      have hfe : ((links.map Prod.fst).filter (fun k => k ∉ ([] : List String)))
          = links.map Prod.fst := by
        apply List.filter_eq_self.mpr
        intro a _
        simp
      rw [hfe] at this
      simpa using this
  have hp4 : links.length ≤ nodeIds.length := by
    have h1 : (links.map Prod.fst).toFinset.card = (links.map Prod.fst).length :=
      List.toFinset_card_of_nodup hknd
    have h2 : nodeIds.toFinset.card = nodeIds.length :=
      List.toFinset_card_of_nodup hnnd
    have hsub : (links.map Prod.fst).toFinset ⊆ nodeIds.toFinset := by
      intro x hx
      exact List.mem_toFinset.mpr (hkeys x (List.mem_toFinset.mp hx))
    have := Finset.card_le_card hsub
    rw [h1, h2] at this
    simpa using this
  refine ⟨hp1, hp2, ?_, le_trans hp2 hp4⟩
  unfold devicePath
  by_cases hs : s = cid
  · rw [if_pos hs]; simp
  · rw [if_neg hs]
    exact (walkAux_dropLast_nodup links cid (links.length + 1) s []).1

/-- C6 counterexample: on a cyclic link map the returned partial path is
`[B, Cc, B]`, which repeats the identity `B` — the claim "never returns
a path containing a repeated device identity" is false. -/
theorem path_repeat_counterexample :
    (devicePath c6Links "K" "A").map Prod.fst = ["B", "Cc", "B"] ∧
    ¬ ((devicePath c6Links "K" "A").map Prod.fst).Nodup := by
  refine ⟨by decide, by decide⟩

/-- Witness for the amended C6 on the cyclic link map. -/
theorem path_walk_properties_witness :
    devicePath c6Links "K" "K" = [] ∧
    (devicePath c6Links "K" "A").length ≤ c6Links.length ∧
    ((devicePath c6Links "K" "A").map Prod.fst).dropLast.Nodup ∧
    (devicePath c6Links "K" "A").length ≤ (["A", "B", "Cc"] : List String).length :=
  path_walk_properties c6Links "K" "A" ["A", "B", "Cc"] (by decide) (by decide)
    (by decide)

/-- C9 (amended): every link-weight lqi is coerced to an integer —
missing/null and non-numeric values normalize to 0 — but NO clamping to
the 0-255 range is applied: numeric values pass through unchanged, and
every edge built by `build_topology` carries exactly the coerced raw
report. -/
theorem lqi_coercion_no_clamp :
    pyToInt JVal.jnull = 0 ∧
    (∀ n : Int, pyToInt (JVal.jint n) = n) ∧
    (∀ s : String, s ≠ "" → pyIntDec? s = none → pyToInt (JVal.jstr s) = 0) ∧
    (∀ devs : List Device, ∀ e ∈ buildTopologyEdges devs,
      ∃ d ∈ devs, ∃ nb ∈ d.neighbors, e.lqi = pyToInt nb.lqi) := by
  refine ⟨rfl, fun n => rfl, ?_, ?_⟩
  · intro s hne hparse
    unfold pyToInt
    dsimp only
    rw [if_neg hne, hparse]
    rfl
  · intro devs e he
    unfold buildTopologyEdges at he
    rw [List.mem_flatMap] at he
    obtain ⟨d, hd, he2⟩ := he
    rw [List.mem_filterMap] at he2
    obtain ⟨nb, hnb, hmk⟩ := he2
    refine ⟨d, hd, nb, hnb, ?_⟩
    cases hie : nb.ieee with
    | none => rw [hie] at hmk; simp at hmk
    | some nid =>
        rw [hie] at hmk
        dsimp only at hmk
        by_cases hz : nid = ""
        · rw [if_pos hz] at hmk; simp at hmk
        · rw [if_neg hz] at hmk
          injection hmk with hmk'
          rw [← hmk']

/-- C9 counterexample: `build_topology` emits an edge with lqi 999,
which exceeds 255 — the claimed clamping into 0-255 does not happen. -/
theorem lqi_clamp_counterexample :
    buildTopologyEdges c9Devs = [⟨"A", "B", "Sibling", 999⟩] ∧
    ¬ ((999 : Int) ≤ 255) := by
  refine ⟨by decide, by decide⟩

/-- Witness for the amended C9 at concrete values. -/
theorem lqi_coercion_no_clamp_witness :
    pyToInt JVal.jnull = 0 ∧ pyToInt (JVal.jint 999) = 999 ∧
    pyToInt (JVal.jstr "abc") = 0 ∧
    ∃ d ∈ c9Devs, ∃ nb ∈ d.neighbors,
      (⟨"A", "B", "Sibling", 999⟩ : Edge).lqi = pyToInt nb.lqi :=
  ⟨lqi_coercion_no_clamp.1, lqi_coercion_no_clamp.2.1 999,
   lqi_coercion_no_clamp.2.2.1 "abc" (by decide) (by decide),
   lqi_coercion_no_clamp.2.2.2 c9Devs ⟨"A", "B", "Sibling", 999⟩
     (by decide)⟩
